import Mathlib

/-!
Shallow embedding of the slacker CLI (src/main.go, the concurrent-dispatcher
variant with the -online, -expires-in and -expires-at flags), together with
theorems checking the specification's claims against it.

The embedding models: the flag validation in main, expiration computation
(time.Parse with layout 2006-01-02T15:04:05 and Unix timestamps), the
credential loading in getTokens, the per-account worker launched by main's
dispatch loop, and the client's setStatus / clearStatus / setPresence payload
construction (including Go's %q string quoting as used by fmt.Sprintf).
-/

deriving instance DecidableEq for Except

namespace Slacker

/-- Space characters recognized by Go's unicode.IsSpace in the Latin-1 range
(space, tab, newline, vertical tab, form feed, carriage return, NEL, NBSP);
these are the separators used by strings.TrimSpace and fmt.Sscan. -/
def goIsSpace (c : Char) : Bool :=
  c = Char.ofNat 32 || c = Char.ofNat 9 || c = Char.ofNat 10 || c = Char.ofNat 11 ||
    c = Char.ofNat 12 || c = Char.ofNat 13 || c = Char.ofNat 0x85 || c = Char.ofNat 0xA0

/-- Model of strings.TrimSpace on the character list of a line. -/
def goTrim (cs : List Char) : List Char :=
  ((cs.dropWhile goIsSpace).reverse.dropWhile goIsSpace).reverse

/-- Accumulator pass of the whitespace splitter: cur holds the characters of
the current field in reverse. -/
def fieldsAux : List Char → List Char → List (List Char)
  | [], cur => if cur = [] then [] else [cur.reverse]
  | c :: rest, cur =>
    if goIsSpace c then
      if cur = [] then fieldsAux rest [] else cur.reverse :: fieldsAux rest []
    else fieldsAux rest (c :: cur)

/-- Whitespace-separated fields of a character list, as fmt.Sscan tokenizes
its input (maximal runs of non-space characters). -/
def splitWS (cs : List Char) : List (List Char) :=
  fieldsAux cs []

/-- Fuel-driven digit extraction (the fuel only guarantees structural
termination; n + 1 units always suffice). -/
def natDigitsAux : Nat → Nat → List Char
  | 0, _ => []
  | fuel + 1, n =>
    if n < 10 then [Char.ofNat (48 + n)]
    else natDigitsAux fuel (n / 10) ++ [Char.ofNat (48 + n % 10)]

/-- Decimal digits of a natural number, most significant first, as Go's
fmt %d renders a non-negative integer. -/
def natDigits (n : Nat) : List Char :=
  natDigitsAux (n + 1) n

/-- Rendering of an int64 by Go's fmt %d. -/
def intDigits (i : Int) : List Char :=
  if i < 0 then Char.ofNat 45 :: natDigits (-i).toNat else natDigits i.toNat

/-- Lowercase hexadecimal digit, as used by strconv's quoting tables. -/
def hexDig (n : Nat) : Char :=
  if n < 10 then Char.ofNat (48 + n) else Char.ofNat (87 + n)

/-- Numeric value of a decimal digit character. -/
def digitVal (c : Char) : Option Nat :=
  if 48 ≤ c.toNat ∧ c.toNat ≤ 57 then some (c.toNat - 48) else none

/-- Numeric value of a lowercase/uppercase hexadecimal digit character. -/
def hexVal (c : Char) : Option Nat :=
  if 48 ≤ c.toNat ∧ c.toNat ≤ 57 then some (c.toNat - 48)
  else if 97 ≤ c.toNat ∧ c.toNat ≤ 102 then some (c.toNat - 87)
  else if 65 ≤ c.toNat ∧ c.toNat ≤ 70 then some (c.toNat - 55)
  else none

/-- Go strconv quoting of one character, as emitted by fmt's %q verb for the
characters of a string: quote and backslash are escaped, printable ASCII
passes through unchanged, the named control escapes are used for U+0007
through U+000D, remaining ASCII control characters and DEL become a \x escape
with two lowercase hex digits. Characters at U+0080 and above are rendered
verbatim, which is what strconv does for every printable rune (the common
case: letters, punctuation, real emoji); non-printable runes above U+007F,
which strconv would render as \u escapes, are out of scope of the claims
checked here and are also passed through verbatim. -/
def goQuoteChar (c : Char) : List Char :=
  if c = Char.ofNat 34 then [Char.ofNat 92, Char.ofNat 34]
  else if c = Char.ofNat 92 then [Char.ofNat 92, Char.ofNat 92]
  else if 32 ≤ c.toNat ∧ c.toNat ≤ 126 then [c]
  else if c = Char.ofNat 7 then [Char.ofNat 92, Char.ofNat 97]
  else if c = Char.ofNat 8 then [Char.ofNat 92, Char.ofNat 98]
  else if c = Char.ofNat 9 then [Char.ofNat 92, Char.ofNat 116]
  else if c = Char.ofNat 10 then [Char.ofNat 92, Char.ofNat 110]
  else if c = Char.ofNat 11 then [Char.ofNat 92, Char.ofNat 118]
  else if c = Char.ofNat 12 then [Char.ofNat 92, Char.ofNat 102]
  else if c = Char.ofNat 13 then [Char.ofNat 92, Char.ofNat 114]
  else if c.toNat < 32 ∨ c.toNat = 127 then
    [Char.ofNat 92, Char.ofNat 120, hexDig (c.toNat / 16), hexDig (c.toNat % 16)]
  else [c]

/-- Quoted body of a string under Go's %q (without the surrounding quotes). -/
def goQuoteList : List Char → List Char
  | [] => []
  | c :: cs => goQuoteChar c ++ goQuoteList cs

/-- Go's %q rendering of a string: surrounding double quotes around the
escaped body. -/
def goQuote (s : String) : String :=
  String.mk (Char.ofNat 34 :: (goQuoteList s.data ++ [Char.ofNat 34]))

/-- Go's strings.Join. -/
def goJoin (sep : String) : List String → String
  | [] => ""
  | [x] => x
  | x :: y :: xs => x ++ sep ++ goJoin sep (y :: xs)

/-- Substring relation on strings: sub occurs contiguously inside s. -/
def Substr (sub s : String) : Prop :=
  ∃ a b : String, s = a ++ sub ++ b

/-- The literal text of the profile payload up to the status_text value. -/
def litStatusText : List Char := "\x7b\"status_text\":".data

/-- The literal text between the status_text value and the status_emoji
value. -/
def litStatusEmoji : List Char := ",\"status_emoji\":".data

/-- The literal text of the optional status_expiration member up to its
value, comma included. -/
def litExpirationComma : List Char := ",\"status_expiration\":".data

/-- The status_expiration member text after the introducing comma. -/
def litExpiration : List Char := "\"status_expiration\":".data

/-- The JSON-ish profile payload that client.setStatus builds by string
formatting: fmt.Sprintf renders the opening object with status_text and
status_emoji via %q, appends a status_expiration member only when
expiration > 0, then appends the closing brace. -/
def profileChars (emoji text : List Char) (expiration : Int) : List Char :=
  (litStatusText ++ (Char.ofNat 34 :: (goQuoteList text ++ [Char.ofNat 34]))
      ++ litStatusEmoji ++ (Char.ofNat 34 :: (goQuoteList emoji ++ [Char.ofNat 34])))
    ++ (if 0 < expiration then litExpirationComma ++ intDigits expiration else [])
    ++ [Char.ofNat 125]

/-- String form of the profile payload built by client.setStatus. -/
def setStatusProfile (emoji text : String) (expiration : Int) : String :=
  String.mk (profileChars emoji.data text.data expiration)

/-- Profile payload sent by client.clearStatus, which calls
setStatus("", "", 0). -/
def clearStatusProfile : String :=
  setStatusProfile "" "" 0

/-- Prepends a character to the string part of a reader result. -/
def consRead (c : Char) : Option (List Char × List Char) → Option (List Char × List Char)
  | some (s, r) => some (c :: s, r)
  | none => none

/-- The letter escapes of Go's quoted strings (\" \\ \a \b \t \n \v \f \r)
and the character each decodes to. -/
def goEsc (e : Char) : Option Char :=
  if e = Char.ofNat 34 then some (Char.ofNat 34)
  else if e = Char.ofNat 92 then some (Char.ofNat 92)
  else if e = Char.ofNat 97 then some (Char.ofNat 7)
  else if e = Char.ofNat 98 then some (Char.ofNat 8)
  else if e = Char.ofNat 116 then some (Char.ofNat 9)
  else if e = Char.ofNat 110 then some (Char.ofNat 10)
  else if e = Char.ofNat 118 then some (Char.ofNat 11)
  else if e = Char.ofNat 102 then some (Char.ofNat 12)
  else if e = Char.ofNat 114 then some (Char.ofNat 13)
  else none

/-- One step of a quoted-string reader: the closing quote ends the string,
a decoded character is taken, or the input is malformed. -/
inductive QStep
  | done (rest : List Char)
  | take (d : Char) (rest : List Char)
  | fail
deriving DecidableEq, Repr

/-- One step of the Go-quoted-string reader on a nonempty input: closing
quote, letter escape, \xHH hex escape, or a raw character. -/
def goStepCons (c : Char) (rest : List Char) : QStep :=
  if c = Char.ofNat 34 then .done rest
  else if c = Char.ofNat 92 then
    match rest with
    | [] => .fail
    | e :: rest2 =>
      match goEsc e with
      | some d => .take d rest2
      | none =>
        if e = Char.ofNat 120 then
          match rest2 with
          | h1 :: h2 :: rest3 =>
            match hexVal h1, hexVal h2 with
            | some a, some b => .take (Char.ofNat (16 * a + b)) rest3
            | _, _ => .fail
          | _ => .fail
        else .fail
  else .take c rest

/-- One step of the Go-quoted-string reader. -/
def goStep : List Char → QStep
  | [] => .fail
  | c :: rest => goStepCons c rest

/-- Fuel-driven loop of the Go-quoted-string reader; one unit of fuel per
decoded character suffices. -/
def readGoBodyF : Nat → List Char → Option (List Char × List Char)
  | 0, _ => none
  | fuel + 1, cs =>
    match goStep cs with
    | .done rest => some ([], rest)
    | .take d rest => consRead d (readGoBodyF fuel rest)
    | .fail => none

/-- Reader for the body of a Go-quoted string (after the opening quote),
inverting the escapes goQuoteChar can produce; returns the decoded
characters and the input remaining after the closing quote. -/
def readGoBody (cs : List Char) : Option (List Char × List Char) :=
  readGoBodyF (cs.length + 1) cs

/-- Reader for a full Go-quoted string, opening quote included. -/
def readGoStr (cs : List Char) : Option (List Char × List Char) :=
  match cs with
  | c :: rest => if c = Char.ofNat 34 then readGoBody rest else none
  | [] => none

/-- The two-character escapes JSON string literals allow per RFC 8259
(\" \\ \/ \b \f \n \r \t) and the character each decodes to. Note that
Go's \a, \v and \x escapes are absent. -/
def jsonEsc (e : Char) : Option Char :=
  if e = Char.ofNat 34 then some (Char.ofNat 34)
  else if e = Char.ofNat 92 then some (Char.ofNat 92)
  else if e = Char.ofNat 47 then some (Char.ofNat 47)
  else if e = Char.ofNat 98 then some (Char.ofNat 8)
  else if e = Char.ofNat 102 then some (Char.ofNat 12)
  else if e = Char.ofNat 110 then some (Char.ofNat 10)
  else if e = Char.ofNat 114 then some (Char.ofNat 13)
  else if e = Char.ofNat 116 then some (Char.ofNat 9)
  else none

/-- One step of the JSON-string reader on a nonempty input: closing quote,
two-character escape, \uHHHH escape, or a raw character at or above U+0020
that is not a quote or backslash; anything else (including any raw control
character and Go's \a, \v and \xHH escapes) is a syntax error per RFC 8259. -/
def jsonStepCons (c : Char) (rest : List Char) : QStep :=
  if c = Char.ofNat 34 then .done rest
  else if c = Char.ofNat 92 then
    match rest with
    | [] => .fail
    | e :: rest2 =>
      match jsonEsc e with
      | some d => .take d rest2
      | none =>
        if e = Char.ofNat 117 then
          match rest2 with
          | h1 :: h2 :: h3 :: h4 :: rest3 =>
            match hexVal h1, hexVal h2, hexVal h3, hexVal h4 with
            | some a, some b, some c', some d =>
              .take (Char.ofNat (4096 * a + 256 * b + 16 * c' + d)) rest3
            | _, _, _, _ => .fail
          | _ => .fail
        else .fail
  else if 32 ≤ c.toNat then .take c rest
  else .fail

/-- One step of the JSON-string reader. -/
def jsonStep : List Char → QStep
  | [] => .fail
  | c :: rest => jsonStepCons c rest

/-- Fuel-driven loop of the JSON-string reader; one unit of fuel per decoded
character suffices. -/
def readJsonBodyF : Nat → List Char → Option (List Char × List Char)
  | 0, _ => none
  | fuel + 1, cs =>
    match jsonStep cs with
    | .done rest => some ([], rest)
    | .take d rest => consRead d (readJsonBodyF fuel rest)
    | .fail => none

/-- Reader for the body of a JSON string literal per RFC 8259, returning the
decoded characters and the input remaining after the closing quote. -/
def readJsonBody (cs : List Char) : Option (List Char × List Char) :=
  readJsonBodyF (cs.length + 1) cs

/-- Reader for a full JSON string literal, opening quote included. -/
def readJsonStr (cs : List Char) : Option (List Char × List Char) :=
  match cs with
  | c :: rest => if c = Char.ofNat 34 then readJsonBody rest else none
  | [] => none

/-- Characters whose Go %q quoting is also a legal JSON encoding decoding to
the same character: printable ASCII, plus the control characters whose named
Go escapes coincide with JSON escapes (backspace, tab, newline, form feed,
carriage return). -/
def jsonSafe (c : Char) : Bool :=
  (32 ≤ c.toNat && c.toNat ≤ 126)
    || (c.toNat = 8 || c.toNat = 9 || c.toNat = 10 || c.toNat = 12 || c.toNat = 13)

/-- Drops an expected literal from the front of the input, failing when the
input does not start with it. -/
def dropLit : List Char → List Char → Option (List Char)
  | [], cs => some cs
  | _ :: _, [] => none
  | l :: ls, c :: cs => if c = l then dropLit ls cs else none

/-- Value of a digit list read left to right. -/
def digitsToNat (ds : List Char) : Nat :=
  ds.foldl (fun a c => 10 * a + (c.toNat - 48)) 0

/-- Is the character a decimal digit. -/
def isDigitChar (c : Char) : Bool :=
  48 ≤ c.toNat && c.toNat ≤ 57

/-- Reads a maximal nonempty run of decimal digits as a natural number. -/
def readNat (cs : List Char) : Option (Nat × List Char) :=
  match cs.takeWhile isDigitChar with
  | [] => none
  | ds => some (digitsToNat ds, cs.dropWhile isDigitChar)

/-- Parses the optional tail of the profile object after the emoji member:
either the closing brace ends the object, or a comma introduces the final
status_expiration member holding a nonempty digit run. -/
def parseProfileTail : List Char → Option (Option Int)
  | [] => none
  | c :: r5 =>
    if c = Char.ofNat 125 then
      if r5 = [] then some none else none
    else if c = Char.ofNat 44 then
      match dropLit litExpiration r5 with
      | none => none
      | some r6 =>
        match readNat r6 with
        | none => none
        | some (n, r7) =>
          if r7 = [Char.ofNat 125] then some (some (n : Int)) else none
    else none

/-- Parses a profile payload of the exact shape setStatus emits, reading the
two string values with the supplied string reader: an object with a
status_text member, a status_emoji member, and an optional final
status_expiration member holding a nonempty digit run. -/
def parseProfileWith (readStr : List Char → Option (List Char × List Char))
    (cs : List Char) : Option (String × String × Option Int) :=
  (dropLit litStatusText cs).bind fun r1 =>
  (readStr r1).bind fun tr =>
  (dropLit litStatusEmoji tr.2).bind fun r3 =>
  (readStr r3).bind fun er =>
  (parseProfileTail er.2).map fun expn => (String.mk tr.1, String.mk er.1, expn)

/-- A civil date-time as produced by Go's time.Parse with the layout
2006-01-02T15:04:05 (no zone information: the result is in UTC). -/
structure DateTime where
  year : Nat
  month : Nat
  day : Nat
  hour : Nat
  minute : Nat
  second : Nat
deriving DecidableEq, Repr

/-- Reads exactly two decimal digits, as Go's getnum does for a
zero-padded layout element. -/
def getnum2 (cs : List Char) : Option (Nat × List Char) :=
  match cs with
  | c1 :: c2 :: rest =>
    match digitVal c1, digitVal c2 with
    | some a, some b => some (10 * a + b, rest)
    | _, _ => none
  | _ => none

/-- Reads one or two decimal digits, as Go's getnum does for a layout
element that is not zero-padded (the 24-hour element "15"). -/
def getnum1or2 (cs : List Char) : Option (Nat × List Char) :=
  match cs with
  | [] => none
  | c1 :: rest1 =>
    match digitVal c1 with
    | none => none
    | some a =>
      match rest1 with
      | c2 :: rest2 =>
        match digitVal c2 with
        | some b => some (10 * a + b, rest2)
        | none => some (a, rest1)
      | [] => some (a, [])

/-- Reads exactly four decimal digits, as Go's getnum4 does for the long
year element "2006". -/
def getnum4 (cs : List Char) : Option (Nat × List Char) :=
  match cs with
  | c1 :: c2 :: c3 :: c4 :: rest =>
    match digitVal c1, digitVal c2, digitVal c3, digitVal c4 with
    | some a, some b, some c, some d => some (1000 * a + 100 * b + 10 * c + d, rest)
    | _, _, _, _ => none
  | _ => none

/-- Consumes one expected literal layout character. -/
def dropSepChar (sep : Char) (cs : List Char) : Option (List Char) :=
  match cs with
  | c :: rest => if c = sep then some rest else none
  | [] => none

/-- Message of a Go time.ParseError when a layout element cannot be parsed
from the remaining input. -/
def timeParseErrCannot (v : String) (rem : List Char) (elem : String) : String :=
  "parsing time " ++ goQuote v ++ " as \"2006-01-02T15:04:05\": cannot parse "
    ++ goQuote (String.mk rem) ++ " as \"" ++ elem ++ "\""

/-- Message of a Go time.ParseError when a parsed component is out of range. -/
def timeParseErrRange (v unit : String) : String :=
  "parsing time " ++ goQuote v ++ ": " ++ unit ++ " out of range"

/-- Message of a Go time.ParseError when input remains after the layout is
exhausted. -/
def timeParseErrExtra (v : String) (rem : List Char) : String :=
  "parsing time " ++ goQuote v ++ ": extra text: " ++ goQuote (String.mk rem)

/-- Gregorian leap-year rule, as in Go's time package. -/
def isLeap (y : Nat) : Bool :=
  y % 4 = 0 && (y % 100 ≠ 0 || y % 400 = 0)

/-- Number of days in the given month of the given year. -/
def daysInMonth (y m : Nat) : Nat :=
  if m = 2 then (if isLeap y then 29 else 28)
  else if m = 4 ∨ m = 6 ∨ m = 9 ∨ m = 11 then 30
  else 31

/-- Model of Go time.Parse("2006-01-02T15:04:05", v): fixed-width numeric
fields separated by literal characters, with Go's range validation and error
messages; the hour element accepts one or two digits because the layout
element "15" is not zero-padded in Go's parser. -/
def parseISO (v : String) : Except String DateTime :=
  let cs := v.data
  match getnum4 cs with
  | none => .error (timeParseErrCannot v cs "2006")
  | some (y, r1) =>
  match dropSepChar (Char.ofNat 45) r1 with
  | none => .error (timeParseErrCannot v r1 "-")
  | some r2 =>
  match getnum2 r2 with
  | none => .error (timeParseErrCannot v r2 "01")
  | some (mo, r3) =>
  if mo < 1 ∨ 12 < mo then .error (timeParseErrRange v "month")
  else
  match dropSepChar (Char.ofNat 45) r3 with
  | none => .error (timeParseErrCannot v r3 "-")
  | some r4 =>
  match getnum2 r4 with
  | none => .error (timeParseErrCannot v r4 "02")
  | some (d, r5) =>
  match dropSepChar (Char.ofNat 84) r5 with
  | none => .error (timeParseErrCannot v r5 "T")
  | some r6 =>
  match getnum1or2 r6 with
  | none => .error (timeParseErrCannot v r6 "15")
  | some (h, r7) =>
  if 24 ≤ h then .error (timeParseErrRange v "hour")
  else
  match dropSepChar (Char.ofNat 58) r7 with
  | none => .error (timeParseErrCannot v r7 ":")
  | some r8 =>
  match getnum2 r8 with
  | none => .error (timeParseErrCannot v r8 "04")
  | some (mi, r9) =>
  if 60 ≤ mi then .error (timeParseErrRange v "minute")
  else
  match dropSepChar (Char.ofNat 58) r9 with
  | none => .error (timeParseErrCannot v r9 ":")
  | some r10 =>
  match getnum2 r10 with
  | none => .error (timeParseErrCannot v r10 "05")
  | some (s, r11) =>
  if 60 ≤ s then .error (timeParseErrRange v "second")
  else if r11 ≠ [] then .error (timeParseErrExtra v r11)
  else if d < 1 ∨ daysInMonth y mo < d then .error (timeParseErrRange v "day")
  else .ok ⟨y, mo, d, h, mi, s⟩

/-- Days from 0000-01-01 to the start of year y in the proleptic Gregorian
calendar. -/
def daysBeforeYear (y : Nat) : Nat :=
  365 * y + (y + 3) / 4 - (y + 99) / 100 + (y + 399) / 400

/-- Days from the start of the year to the start of month m (1-12). -/
def daysBeforeMonth (leap : Bool) (m : Nat) : Nat :=
  [0, 0, 31, 59, 90, 120, 151, 181, 212, 243, 273, 304, 334].getD m 0
    + (if leap && 3 ≤ m then 1 else 0)

/-- Absolute day number of a civil date (days since 0000-01-01). -/
def dayNumber (y m d : Nat) : Nat :=
  daysBeforeYear y + daysBeforeMonth (isLeap y) m + (d - 1)

/-- Unix timestamp (seconds) of a parsed UTC date-time, as Go's
Time.Unix() returns for the result of time.Parse; 719528 is the day number
of 1970-01-01. -/
def unixOf (dt : DateTime) : Int :=
  ((dayNumber dt.year dt.month dt.day : Int) - 719528) * 86400
    + dt.hour * 3600 + dt.minute * 60 + dt.second

/-- The command-line flags of the program after flag.Parse: the five action
and status flags, the expiration pair (expiresIn in nanoseconds, Go's
time.Duration), the debug switch, and the trailing positional team-name
filters (flag.Args()). The -config path is handled separately via the cfg
argument of runMain. -/
structure Flags where
  away : Bool
  online : Bool
  clear : Bool
  debug : Bool
  emoji : String
  text : String
  expiresIn : Int
  expiresAt : String
  args : List String
deriving Repr

/-- The fatal error classes of main: each corresponds to one exit(...) call
site in the source, carrying the data interpolated into its message. -/
inductive MainErr
  | noAction
  | clearStatusFlags
  | awayOnline
  | bothExp
  | badExpiresAt (lit : String) (underlying : String)
  | expWithClear
  | configRead (underlying : String)
  | noCurrentUser (underlying : String)
deriving DecidableEq, Repr

/-- The exit code passed at each exit(...) call site of the source. -/
def MainErr.code : MainErr → Nat
  | .noAction => 3
  | .clearStatusFlags => 3
  | .awayOnline => 3
  | .bothExp => 4
  | .badExpiresAt _ _ => 5
  | .expWithClear => 6
  | .configRead _ => 1
  | .noCurrentUser _ => 2

/-- The message formatted at each exit(...) call site (the exit helper then
prints it to stderr followed by a newline). -/
def MainErr.msg : MainErr → String
  | .noAction => ""
  | .clearStatusFlags => "-clear cannot be used with -away, -text or -emoji"
  | .awayOnline => "-online and -away are mutually exclusive"
  | .bothExp => "-expires-at and -expires-in are mutually exclusive"
  | .badExpiresAt lit underlying =>
      "cannot parse ISO8601 argument " ++ goQuote lit ++ ": " ++ underlying
  | .expWithClear => "cannot use expiration when clearing the status"
  | .configRead underlying =>
      "Failure while reading configuration file: " ++ underlying ++ "\n"
  | .noCurrentUser underlying => "Couldn't get current user: " ++ underlying ++ "\n"

/-- The expiration computation of main: a positive -expires-in duration is
added to the current time (nowNs: nanoseconds since the epoch) and floored
to Unix seconds; otherwise a non-empty -expires-at is parsed and converted;
otherwise the expiration stays zero. -/
def computeExpiration (f : Flags) (nowNs : Int) : Except MainErr Int :=
  if 0 < f.expiresIn then .ok ((nowNs + f.expiresIn).fdiv 1000000000)
  else if f.expiresAt ≠ "" then
    match parseISO f.expiresAt with
    | .error e => .error (.badExpiresAt f.expiresAt e)
    | .ok dt => .ok (unixOf dt)
  else .ok 0

/-- The flag validation of main, in source order: at least one action; -clear
against -emoji and -text only; -online against -away; -expires-at against a
positive -expires-in; then the expiration is computed, and a positive
expiration conflicts with -clear. On success it returns the computed
expiration. -/
def validate (f : Flags) (nowNs : Int) : Except MainErr Int :=
  if ¬(f.clear = true ∨ f.away = true ∨ f.online = true ∨ f.emoji ≠ "" ∨ f.text ≠ "") then
    .error .noAction
  else if f.clear = true ∧ (f.emoji ≠ "" ∨ f.text ≠ "") then .error .clearStatusFlags
  else if f.online = true ∧ f.away = true then .error .awayOnline
  else if f.expiresAt ≠ "" ∧ 0 < f.expiresIn then .error .bothExp
  else
    match computeExpiration f nowNs with
    | .error e => .error e
    | .ok exp => if 0 < exp ∧ f.clear = true then .error .expWithClear else .ok exp

/-- Model of defaultConfigFile: resolving the current user either fails
(exit 2) or yields the home directory, to which the conventional dotfile
name is joined. -/
def defaultConfigFile (u : Except String String) : Except MainErr String :=
  match u with
  | .error e => .error (.noCurrentUser e)
  | .ok home => .ok (home ++ "/.slack")

/-- Failure modes of getTokens: the source cannot be opened, or no entries
remain after filtering. -/
inductive GetTokensErr
  | openFail (underlying : String)
  | noTokens (teams : List String)
deriving DecidableEq, Repr

/-- Rendering of a getTokens failure, as %v formats the returned error. -/
def renderTokensErr : GetTokensErr → String
  | .openFail underlying => underlying
  | .noTokens teams => "no tokens found for teams: " ++ goJoin ", " teams

/-- Classification of one credential line after trimming: skipped (blank or
comment), malformed (fewer than two whitespace-separated tokens, which makes
fmt.Sscan fail), or an entry built from the first two tokens (fmt.Sscan with
two operands ignores any further tokens on the line). -/
inductive LineClass
  | skip
  | bad
  | entry (team token : String)
deriving DecidableEq, Repr

/-- Classifies one line the way the getTokens scan loop treats it. -/
def lineClass (l : String) : LineClass :=
  match goTrim l.data with
  | [] => .skip
  | c :: rest =>
    if c = Char.ofNat 35 then .skip
    else
      match splitWS (c :: rest) with
      | t1 :: t2 :: _ => .entry (String.mk t1) (String.mk t2)
      | _ => .bad

/-- The warning printed for a malformed credential line: the source formats
the line number, the %q-quoted line, and the fmt.Sscan error (running out of
input before the second operand yields "unexpected EOF"). -/
def warnMsg (nline : Nat) (l : String) : String :=
  "error when reading line " ++ String.mk (natDigits nline) ++ ": "
    ++ goQuote l ++ " => unexpected EOF\n"

/-- The team filter of getTokens: an empty filter admits every team,
otherwise only the listed teams. -/
def includeTeam (teams : List String) (t : String) : Bool :=
  if teams.isEmpty then true else teams.contains t

/-- Warnings produced by the scan loop, numbering lines from n. -/
def scanWarns (n : Nat) : List String → List String
  | [] => []
  | l :: rest =>
    (match lineClass l with
     | .bad => [warnMsg n l]
     | _ => []) ++ scanWarns (n + 1) rest

/-- The included (team, token) pairs produced by the scan loop, in line
order. -/
def scanEntries (teams : List String) : List String → List (String × String)
  | [] => []
  | l :: rest =>
    (match lineClass l with
     | .entry t tok => if includeTeam teams t then [(t, tok)] else []
     | _ => []) ++ scanEntries teams rest

/-- Insertion into the token map: a later line for the same team overwrites
the earlier token (Go map assignment). -/
def upsert : List (String × String) → String → String → List (String × String)
  | [], k, v => [(k, v)]
  | (k', v') :: rest, k, v =>
    if k' = k then (k, v) :: rest else (k', v') :: upsert rest k v

/-- The token map accumulated by getTokens. -/
def tokensMap (teams : List String) (lines : List String) : List (String × String) :=
  (scanEntries teams lines).foldl (fun m e => upsert m e.1 e.2) []

/-- Model of getTokens: the configuration source is either unreadable or a
list of lines; the scan emits warnings for malformed lines and builds the
filtered token map, and an empty map is a failure naming the requested
teams. -/
def getTokens (teams : List String) (cfg : Except String (List String)) :
    List String × Except GetTokensErr (List (String × String)) :=
  match cfg with
  | .error e => ([], .error (.openFail e))
  | .ok lines =>
    (scanWarns 1 lines,
     if tokensMap teams lines = [] then .error (.noTokens teams)
     else .ok (tokensMap teams lines))

/-- The three remote sub-actions a worker can perform for one account. -/
inductive SubAction
  | clearStatus
  | setStatus
  | setPresence
deriving DecidableEq, Repr

/-- Outcome oracle for remote calls: for an account and sub-action, none
means the call succeeds and some e means it fails with error message e.
This stands for the network, whose behavior the program does not control. -/
def Oracle : Type := String → SubAction → Option String

/-- One outbound HTTP call as built by client.do: the Slack API method and
the form values (token plus either a profile payload or a presence value). -/
structure Call where
  team : String
  token : String
  method : String
  profile : Option String
  presence : Option String
deriving DecidableEq, Repr

/-- The call issued by client.setStatus. -/
def setStatusCall (team token emoji text : String) (expiration : Int) : Call :=
  ⟨team, token, "users.profile.set", some (setStatusProfile emoji text expiration), none⟩

/-- The call issued by client.clearStatus, which is setStatus("", "", 0). -/
def clearStatusCall (team token : String) : Call :=
  setStatusCall team token "" "" 0

/-- The call issued by client.setPresence. -/
def setPresenceCall (team token presence : String) : Call :=
  ⟨team, token, "users.setPresence", none, some presence⟩

/-- The presence string the worker computes: "auto" for -online, "away" for
-away, empty when neither is set. -/
def presenceOf (f : Flags) : String :=
  if f.online = true then "auto" else if f.away = true then "away" else ""

/-- The warning main's worker prints when clearing the status fails. -/
def clearWarnMsg (team e : String) : String :=
  "Cannot clear status in " ++ team ++ ": " ++ e ++ "\n"

/-- The warning main's worker prints when setting the custom status fails. -/
def statusWarnMsg (team e : String) : String :=
  "Cannot set custom status in " ++ team ++ ": " ++ e ++ "\n"

/-- The warning main's worker prints when setting the presence fails. -/
def presenceWarnMsg (presence team e : String) : String :=
  "Cannot set presence to " ++ presence ++ " in " ++ team ++ ": " ++ e ++ "\n"

/-- Warnings produced by one remote call: one rendered message when the
oracle reports a failure, nothing on success. -/
def failMsgs (o : Option String) (mk : String → String) : List String :=
  match o with
  | some e => [mk e]
  | none => []

/-- The per-account unit of work main launches for each (team, token) pair:
in order, clear the status if -clear, set the custom status if -emoji or
-text was given, then set the presence if one was requested. Each failed
call is reported with a warning naming the team and the sub-action, and
never stops the remaining steps. Returns the issued calls and the printed
warnings (first component: calls in issue order; second: warnings in issue
order). -/
def runTeam (f : Flags) (expiration : Int) (oracle : Oracle) (team token : String) :
    List Call × List String :=
  ((if f.clear = true then [clearStatusCall team token] else [])
      ++ (if f.emoji ≠ "" ∨ f.text ≠ "" then
            [setStatusCall team token f.emoji f.text expiration] else [])
      ++ (if presenceOf f ≠ "" then [setPresenceCall team token (presenceOf f)] else []),
    (if f.clear = true then
        failMsgs (oracle team .clearStatus) (clearWarnMsg team) else [])
      ++ (if f.emoji ≠ "" ∨ f.text ≠ "" then
            failMsgs (oracle team .setStatus) (statusWarnMsg team) else [])
      ++ (if presenceOf f ≠ "" then
            failMsgs (oracle team .setPresence) (presenceWarnMsg (presenceOf f) team)
          else []))

/-- Observable result of one program run: the process exit code, the lines
written to stderr, and the remote calls issued. -/
structure RunResult where
  exitCode : Nat
  stderr : List String
  calls : List Call
deriving DecidableEq, Repr

/-- The whole of main after flag.Parse: validation (fatal exit on a usage
error), credential loading (fatal exit on a config error), then one unit of
work per account in the filtered map, after which the process exits with
code 0. The warnings of all workers go to stderr; remote-call failures never
change the exit code. -/
def runMain (f : Flags) (nowNs : Int) (cfg : Except String (List String))
    (oracle : Oracle) : RunResult :=
  match validate f nowNs with
  | .error e => ⟨e.code, [e.msg ++ "\n"], []⟩
  | .ok expiration =>
    match getTokens f.args cfg with
    | (ws, .error e) =>
      ⟨(MainErr.configRead (renderTokensErr e)).code,
        ws ++ [(MainErr.configRead (renderTokensErr e)).msg ++ "\n"], []⟩
    | (ws, .ok toks) =>
      ⟨0, ws ++ (toks.map fun p => (runTeam f expiration oracle p.1 p.2).2).flatten,
        (toks.map fun p => (runTeam f expiration oracle p.1 p.2).1).flatten⟩

/-- The account names that the credential source's well-formed lines carry,
in line order (the names "present in the source"). -/
def sourceNames (lines : List String) : List String :=
  lines.filterMap fun l =>
    match lineClass l with
    | .entry t _ => some t
    | _ => none

theorem char_toNat_ofNat (n : Nat) (h : n < 55296) : (Char.ofNat n).toNat = n := by
  rw [Char.ofNat, dif_pos (Or.inl h)]
  rfl

theorem string_mk_data (s : String) : String.mk s.data = s := by
  cases s
  rfl

theorem string_data_mk (l : List Char) : (String.mk l).data = l := rfl

theorem bs_ne_quote : ¬(Char.ofNat 92 = Char.ofNat 34) := by decide

theorem goEsc_x : goEsc (Char.ofNat 120) = none := by decide

theorem jsonEsc_u : jsonEsc (Char.ofNat 117) = none := by decide

theorem char_eq_ofNat_of_toNat_eq {c : Char} {n : Nat} (h : c.toNat = n) :
    c = Char.ofNat n := by
  rw [← h, Char.ofNat_toNat]

theorem goStep_quote (r : List Char) : goStep (Char.ofNat 34 :: r) = QStep.done r := rfl

theorem goStep_esc (e d : Char) (r : List Char) (he : goEsc e = some d) :
    goStep (Char.ofNat 92 :: e :: r) = QStep.take d r := by
  simp [goStep, goStepCons, bs_ne_quote, he]

theorem goStep_hex (h1 h2 : Char) (a b : Nat) (r : List Char)
    (hh1 : hexVal h1 = some a) (hh2 : hexVal h2 = some b) :
    goStep (Char.ofNat 92 :: Char.ofNat 120 :: h1 :: h2 :: r)
      = QStep.take (Char.ofNat (16 * a + b)) r := by
  simp [goStep, goStepCons, bs_ne_quote, goEsc_x, hh1, hh2]

theorem goStep_raw (c : Char) (r : List Char) (hq : ¬c = Char.ofNat 34)
    (hb : ¬c = Char.ofNat 92) : goStep (c :: r) = QStep.take c r := by
  simp [goStep, goStepCons, hq, hb]

theorem jsonStep_quote (r : List Char) : jsonStep (Char.ofNat 34 :: r) = QStep.done r := rfl

theorem jsonStep_esc (e d : Char) (r : List Char) (he : jsonEsc e = some d) :
    jsonStep (Char.ofNat 92 :: e :: r) = QStep.take d r := by
  simp [jsonStep, jsonStepCons, bs_ne_quote, he]

theorem jsonStep_raw (c : Char) (r : List Char) (hq : ¬c = Char.ofNat 34)
    (hb : ¬c = Char.ofNat 92) (hge : 32 ≤ c.toNat) :
    jsonStep (c :: r) = QStep.take c r := by
  simp [jsonStep, jsonStepCons, hq, hb, hge]

theorem readGoBodyF_done (fuel : Nat) (cs rest : List Char)
    (h : goStep cs = QStep.done rest) :
    readGoBodyF (fuel + 1) cs = some ([], rest) := by
  simp [readGoBodyF, h]

theorem readGoBodyF_take (fuel : Nat) (cs rest : List Char) (d : Char)
    (h : goStep cs = QStep.take d rest) :
    readGoBodyF (fuel + 1) cs = consRead d (readGoBodyF fuel rest) := by
  simp [readGoBodyF, h]

theorem readJsonBodyF_done (fuel : Nat) (cs rest : List Char)
    (h : jsonStep cs = QStep.done rest) :
    readJsonBodyF (fuel + 1) cs = some ([], rest) := by
  simp [readJsonBodyF, h]

theorem readJsonBodyF_take (fuel : Nat) (cs rest : List Char) (d : Char)
    (h : jsonStep cs = QStep.take d rest) :
    readJsonBodyF (fuel + 1) cs = consRead d (readJsonBodyF fuel rest) := by
  simp [readJsonBodyF, h]

theorem hexVal_hexDig (k : Nat) (hk : k < 16) : hexVal (hexDig k) = some k := by
  unfold hexDig hexVal
  by_cases h : k < 10
  · rw [if_pos h, char_toNat_ofNat (48 + k) (by omega), if_pos (by omega)]
    congr 1
    omega
  · rw [if_neg h, char_toNat_ofNat (87 + k) (by omega), if_neg (by omega), if_pos (by omega)]
    congr 1
    omega

theorem char_ne_ofNat_of_toNat_ne {c : Char} {n : Nat} (hn : n < 55296)
    (h : c.toNat ≠ n) : ¬(c = Char.ofNat n) :=
  fun he => h (by rw [he, char_toNat_ofNat n hn])

theorem goQuoteChar_eq_raw (c : Char) (h34 : c.toNat ≠ 34) (h92 : c.toNat ≠ 92)
    (hPr : 32 ≤ c.toNat ∧ c.toNat ≤ 126) : goQuoteChar c = [c] := by
  unfold goQuoteChar
  rw [if_neg (char_ne_ofNat_of_toNat_ne (by omega) h34),
    if_neg (char_ne_ofNat_of_toNat_ne (by omega) h92), if_pos hPr]

theorem goQuoteChar_eq_hex (c : Char) (hx : c.toNat < 32 ∨ c.toNat = 127)
    (h7 : c.toNat ≠ 7) (h8 : c.toNat ≠ 8) (h9 : c.toNat ≠ 9) (h10 : c.toNat ≠ 10)
    (h11 : c.toNat ≠ 11) (h12 : c.toNat ≠ 12) (h13 : c.toNat ≠ 13) :
    goQuoteChar c
      = [Char.ofNat 92, Char.ofNat 120, hexDig (c.toNat / 16), hexDig (c.toNat % 16)] := by
  unfold goQuoteChar
  rw [if_neg (char_ne_ofNat_of_toNat_ne (by omega) (by omega)),
    if_neg (char_ne_ofNat_of_toNat_ne (by omega) (by omega)),
    if_neg (show ¬(32 ≤ c.toNat ∧ c.toNat ≤ 126) by omega),
    if_neg (char_ne_ofNat_of_toNat_ne (by omega) h7),
    if_neg (char_ne_ofNat_of_toNat_ne (by omega) h8),
    if_neg (char_ne_ofNat_of_toNat_ne (by omega) h9),
    if_neg (char_ne_ofNat_of_toNat_ne (by omega) h10),
    if_neg (char_ne_ofNat_of_toNat_ne (by omega) h11),
    if_neg (char_ne_ofNat_of_toNat_ne (by omega) h12),
    if_neg (char_ne_ofNat_of_toNat_ne (by omega) h13), if_pos hx]

theorem goQuoteChar_eq_rawhi (c : Char) (hhi : 128 ≤ c.toNat) : goQuoteChar c = [c] := by
  unfold goQuoteChar
  rw [if_neg (char_ne_ofNat_of_toNat_ne (by omega) (by omega)),
    if_neg (char_ne_ofNat_of_toNat_ne (by omega) (by omega)),
    if_neg (show ¬(32 ≤ c.toNat ∧ c.toNat ≤ 126) by omega),
    if_neg (char_ne_ofNat_of_toNat_ne (by omega) (by omega)),
    if_neg (char_ne_ofNat_of_toNat_ne (by omega) (by omega)),
    if_neg (char_ne_ofNat_of_toNat_ne (by omega) (by omega)),
    if_neg (char_ne_ofNat_of_toNat_ne (by omega) (by omega)),
    if_neg (char_ne_ofNat_of_toNat_ne (by omega) (by omega)),
    if_neg (char_ne_ofNat_of_toNat_ne (by omega) (by omega)),
    if_neg (char_ne_ofNat_of_toNat_ne (by omega) (by omega)),
    if_neg (show ¬(c.toNat < 32 ∨ c.toNat = 127) by omega)]

theorem goStep_esc_34 (r : List Char) :
    goStep (Char.ofNat 92 :: Char.ofNat 34 :: r) = QStep.take (Char.ofNat 34) r :=
  goStep_esc _ _ _ (by decide)

theorem goStep_esc_92 (r : List Char) :
    goStep (Char.ofNat 92 :: Char.ofNat 92 :: r) = QStep.take (Char.ofNat 92) r :=
  goStep_esc _ _ _ (by decide)

theorem goStep_esc_7 (r : List Char) :
    goStep (Char.ofNat 92 :: Char.ofNat 97 :: r) = QStep.take (Char.ofNat 7) r :=
  goStep_esc _ _ _ (by decide)

theorem goStep_esc_8 (r : List Char) :
    goStep (Char.ofNat 92 :: Char.ofNat 98 :: r) = QStep.take (Char.ofNat 8) r :=
  goStep_esc _ _ _ (by decide)

theorem goStep_esc_9 (r : List Char) :
    goStep (Char.ofNat 92 :: Char.ofNat 116 :: r) = QStep.take (Char.ofNat 9) r :=
  goStep_esc _ _ _ (by decide)

theorem goStep_esc_10 (r : List Char) :
    goStep (Char.ofNat 92 :: Char.ofNat 110 :: r) = QStep.take (Char.ofNat 10) r :=
  goStep_esc _ _ _ (by decide)

theorem goStep_esc_11 (r : List Char) :
    goStep (Char.ofNat 92 :: Char.ofNat 118 :: r) = QStep.take (Char.ofNat 11) r :=
  goStep_esc _ _ _ (by decide)

theorem goStep_esc_12 (r : List Char) :
    goStep (Char.ofNat 92 :: Char.ofNat 102 :: r) = QStep.take (Char.ofNat 12) r :=
  goStep_esc _ _ _ (by decide)

theorem goStep_esc_13 (r : List Char) :
    goStep (Char.ofNat 92 :: Char.ofNat 114 :: r) = QStep.take (Char.ofNat 13) r :=
  goStep_esc _ _ _ (by decide)

theorem jsonStep_esc_34 (r : List Char) :
    jsonStep (Char.ofNat 92 :: Char.ofNat 34 :: r) = QStep.take (Char.ofNat 34) r :=
  jsonStep_esc _ _ _ (by decide)

theorem jsonStep_esc_92 (r : List Char) :
    jsonStep (Char.ofNat 92 :: Char.ofNat 92 :: r) = QStep.take (Char.ofNat 92) r :=
  jsonStep_esc _ _ _ (by decide)

theorem jsonStep_esc_8 (r : List Char) :
    jsonStep (Char.ofNat 92 :: Char.ofNat 98 :: r) = QStep.take (Char.ofNat 8) r :=
  jsonStep_esc _ _ _ (by decide)

theorem jsonStep_esc_9 (r : List Char) :
    jsonStep (Char.ofNat 92 :: Char.ofNat 116 :: r) = QStep.take (Char.ofNat 9) r :=
  jsonStep_esc _ _ _ (by decide)

theorem jsonStep_esc_10 (r : List Char) :
    jsonStep (Char.ofNat 92 :: Char.ofNat 110 :: r) = QStep.take (Char.ofNat 10) r :=
  jsonStep_esc _ _ _ (by decide)

theorem jsonStep_esc_12 (r : List Char) :
    jsonStep (Char.ofNat 92 :: Char.ofNat 102 :: r) = QStep.take (Char.ofNat 12) r :=
  jsonStep_esc _ _ _ (by decide)

theorem jsonStep_esc_13 (r : List Char) :
    jsonStep (Char.ofNat 92 :: Char.ofNat 114 :: r) = QStep.take (Char.ofNat 13) r :=
  jsonStep_esc _ _ _ (by decide)

theorem readGoBodyF_goQuoteList (l : List Char) : ∀ (fuel : Nat) (rest : List Char),
    l.length + 1 ≤ fuel →
    readGoBodyF fuel (goQuoteList l ++ Char.ofNat 34 :: rest) = some (l, rest) := by
  induction l with
  | nil =>
    intro fuel rest hf
    obtain ⟨f, rfl⟩ : ∃ f, fuel = f + 1 := ⟨fuel - 1, by omega⟩
    simpa [goQuoteList] using readGoBodyF_done f _ _ (goStep_quote rest)
  | cons c cs ih =>
    intro fuel rest hf
    obtain ⟨f, rfl⟩ : ∃ f, fuel = f + 1 := ⟨fuel - 1, by omega⟩
    have hfc : cs.length + 1 ≤ f := by
      simp only [List.length_cons] at hf
      omega
    rw [show goQuoteList (c :: cs) = goQuoteChar c ++ goQuoteList cs from rfl,
      List.append_assoc]
    by_cases h34 : c.toNat = 34
    · rw [char_eq_ofNat_of_toNat_eq h34,
        show goQuoteChar (Char.ofNat 34) = [Char.ofNat 92, Char.ofNat 34] by decide]
      simp only [List.cons_append, List.nil_append]
      rw [readGoBodyF_take f _ _ _ (goStep_esc_34 _), ih f rest hfc]
      rfl
    · by_cases h92 : c.toNat = 92
      · rw [char_eq_ofNat_of_toNat_eq h92,
          show goQuoteChar (Char.ofNat 92) = [Char.ofNat 92, Char.ofNat 92] by decide]
        simp only [List.cons_append, List.nil_append]
        rw [readGoBodyF_take f _ _ _ (goStep_esc_92 _), ih f rest hfc]
        rfl
      · by_cases hPr : 32 ≤ c.toNat ∧ c.toNat ≤ 126
        · rw [goQuoteChar_eq_raw c h34 h92 hPr]
          simp only [List.singleton_append]
          rw [readGoBodyF_take f _ _ _
              (goStep_raw c _ (char_ne_ofNat_of_toNat_ne (by omega) h34)
                (char_ne_ofNat_of_toNat_ne (by omega) h92)), ih f rest hfc]
          rfl
        · by_cases h7 : c.toNat = 7
          · rw [char_eq_ofNat_of_toNat_eq h7,
              show goQuoteChar (Char.ofNat 7) = [Char.ofNat 92, Char.ofNat 97] by decide]
            simp only [List.cons_append, List.nil_append]
            rw [readGoBodyF_take f _ _ _ (goStep_esc_7 _), ih f rest hfc]
            rfl
          · by_cases h8 : c.toNat = 8
            · rw [char_eq_ofNat_of_toNat_eq h8,
                show goQuoteChar (Char.ofNat 8) = [Char.ofNat 92, Char.ofNat 98] by decide]
              simp only [List.cons_append, List.nil_append]
              rw [readGoBodyF_take f _ _ _ (goStep_esc_8 _), ih f rest hfc]
              rfl
            · by_cases h9 : c.toNat = 9
              · rw [char_eq_ofNat_of_toNat_eq h9,
                  show goQuoteChar (Char.ofNat 9) = [Char.ofNat 92, Char.ofNat 116] by decide]
                simp only [List.cons_append, List.nil_append]
                rw [readGoBodyF_take f _ _ _ (goStep_esc_9 _), ih f rest hfc]
                rfl
              · by_cases h10 : c.toNat = 10
                · rw [char_eq_ofNat_of_toNat_eq h10,
                    show goQuoteChar (Char.ofNat 10)
                      = [Char.ofNat 92, Char.ofNat 110] by decide]
                  simp only [List.cons_append, List.nil_append]
                  rw [readGoBodyF_take f _ _ _ (goStep_esc_10 _), ih f rest hfc]
                  rfl
                · by_cases h11 : c.toNat = 11
                  · rw [char_eq_ofNat_of_toNat_eq h11,
                      show goQuoteChar (Char.ofNat 11)
                        = [Char.ofNat 92, Char.ofNat 118] by decide]
                    simp only [List.cons_append, List.nil_append]
                    rw [readGoBodyF_take f _ _ _ (goStep_esc_11 _), ih f rest hfc]
                    rfl
                  · by_cases h12 : c.toNat = 12
                    · rw [char_eq_ofNat_of_toNat_eq h12,
                        show goQuoteChar (Char.ofNat 12)
                          = [Char.ofNat 92, Char.ofNat 102] by decide]
                      simp only [List.cons_append, List.nil_append]
                      rw [readGoBodyF_take f _ _ _ (goStep_esc_12 _), ih f rest hfc]
                      rfl
                    · by_cases h13 : c.toNat = 13
                      · rw [char_eq_ofNat_of_toNat_eq h13,
                          show goQuoteChar (Char.ofNat 13)
                            = [Char.ofNat 92, Char.ofNat 114] by decide]
                        simp only [List.cons_append, List.nil_append]
                        rw [readGoBodyF_take f _ _ _ (goStep_esc_13 _), ih f rest hfc]
                        rfl
                      · by_cases hx : c.toNat < 32 ∨ c.toNat = 127
                        · rw [goQuoteChar_eq_hex c hx h7 h8 h9 h10 h11 h12 h13]
                          simp only [List.cons_append, List.nil_append]
                          rw [readGoBodyF_take f _ _ _
                              (goStep_hex _ _ _ _ _ (hexVal_hexDig _ (by omega))
                                (hexVal_hexDig _ (by omega))),
                            show 16 * (c.toNat / 16) + c.toNat % 16 = c.toNat by omega,
                            Char.ofNat_toNat, ih f rest hfc]
                          rfl
                        · rw [goQuoteChar_eq_rawhi c (by omega)]
                          simp only [List.singleton_append]
                          rw [readGoBodyF_take f _ _ _
                              (goStep_raw c _ (char_ne_ofNat_of_toNat_ne (by omega) h34)
                                (char_ne_ofNat_of_toNat_ne (by omega) h92)), ih f rest hfc]
                          rfl

theorem goQuoteChar_length_pos (c : Char) : 1 ≤ (goQuoteChar c).length := by
  by_cases h34 : c.toNat = 34
  · rw [char_eq_ofNat_of_toNat_eq h34]
    decide
  by_cases h92 : c.toNat = 92
  · rw [char_eq_ofNat_of_toNat_eq h92]
    decide
  by_cases hPr : 32 ≤ c.toNat ∧ c.toNat ≤ 126
  · rw [goQuoteChar_eq_raw c h34 h92 hPr]
    simp
  by_cases h7 : c.toNat = 7
  · rw [char_eq_ofNat_of_toNat_eq h7]
    decide
  by_cases h8 : c.toNat = 8
  · rw [char_eq_ofNat_of_toNat_eq h8]
    decide
  by_cases h9 : c.toNat = 9
  · rw [char_eq_ofNat_of_toNat_eq h9]
    decide
  by_cases h10 : c.toNat = 10
  · rw [char_eq_ofNat_of_toNat_eq h10]
    decide
  by_cases h11 : c.toNat = 11
  · rw [char_eq_ofNat_of_toNat_eq h11]
    decide
  by_cases h12 : c.toNat = 12
  · rw [char_eq_ofNat_of_toNat_eq h12]
    decide
  by_cases h13 : c.toNat = 13
  · rw [char_eq_ofNat_of_toNat_eq h13]
    decide
  by_cases hx : c.toNat < 32 ∨ c.toNat = 127
  · rw [goQuoteChar_eq_hex c hx h7 h8 h9 h10 h11 h12 h13]
    simp
  · rw [goQuoteChar_eq_rawhi c (by omega)]
    simp

theorem goQuoteList_length_ge (l : List Char) : l.length ≤ (goQuoteList l).length := by
  induction l with
  | nil => simp [goQuoteList]
  | cons c cs ih =>
    rw [show goQuoteList (c :: cs) = goQuoteChar c ++ goQuoteList cs from rfl]
    have hc := goQuoteChar_length_pos c
    simp only [List.length_append, List.length_cons]
    omega

theorem readGoBody_goQuoteList (l rest : List Char) :
    readGoBody (goQuoteList l ++ Char.ofNat 34 :: rest) = some (l, rest) := by
  unfold readGoBody
  apply readGoBodyF_goQuoteList
  have h1 := goQuoteList_length_ge l
  simp only [List.length_append, List.length_cons]
  omega

theorem readJsonBodyF_goQuoteList (l : List Char) : ∀ (fuel : Nat) (rest : List Char),
    (∀ c ∈ l, jsonSafe c = true) → l.length + 1 ≤ fuel →
    readJsonBodyF fuel (goQuoteList l ++ Char.ofNat 34 :: rest) = some (l, rest) := by
  induction l with
  | nil =>
    intro fuel rest _ hf
    obtain ⟨f, rfl⟩ : ∃ f, fuel = f + 1 := ⟨fuel - 1, by omega⟩
    simpa [goQuoteList] using readJsonBodyF_done f _ _ (jsonStep_quote rest)
  | cons c cs ih =>
    intro fuel rest hsafe hf
    obtain ⟨f, rfl⟩ : ∃ f, fuel = f + 1 := ⟨fuel - 1, by omega⟩
    have hfc : cs.length + 1 ≤ f := by
      simp only [List.length_cons] at hf
      omega
    have hc : jsonSafe c = true := hsafe c (by simp)
    have hsafecs : ∀ d ∈ cs, jsonSafe d = true := fun d hd => hsafe d (by simp [hd])
    have hcN : (32 ≤ c.toNat ∧ c.toNat ≤ 126) ∨ c.toNat = 8 ∨ c.toNat = 9 ∨
        c.toNat = 10 ∨ c.toNat = 12 ∨ c.toNat = 13 := by
      have h := hc
      simp [jsonSafe] at h
      tauto
    rw [show goQuoteList (c :: cs) = goQuoteChar c ++ goQuoteList cs from rfl,
      List.append_assoc]
    by_cases h34 : c.toNat = 34
    · rw [char_eq_ofNat_of_toNat_eq h34,
        show goQuoteChar (Char.ofNat 34) = [Char.ofNat 92, Char.ofNat 34] by decide]
      simp only [List.cons_append, List.nil_append]
      rw [readJsonBodyF_take f _ _ _ (jsonStep_esc_34 _), ih f rest hsafecs hfc]
      rfl
    · by_cases h92 : c.toNat = 92
      · rw [char_eq_ofNat_of_toNat_eq h92,
          show goQuoteChar (Char.ofNat 92) = [Char.ofNat 92, Char.ofNat 92] by decide]
        simp only [List.cons_append, List.nil_append]
        rw [readJsonBodyF_take f _ _ _ (jsonStep_esc_92 _), ih f rest hsafecs hfc]
        rfl
      · rcases hcN with hPr | h8 | h9 | h10 | h12 | h13
        · rw [goQuoteChar_eq_raw c h34 h92 hPr]
          simp only [List.singleton_append]
          rw [readJsonBodyF_take f _ _ _
              (jsonStep_raw c _ (char_ne_ofNat_of_toNat_ne (by omega) h34)
                (char_ne_ofNat_of_toNat_ne (by omega) h92) hPr.1), ih f rest hsafecs hfc]
          rfl
        · rw [char_eq_ofNat_of_toNat_eq h8,
            show goQuoteChar (Char.ofNat 8) = [Char.ofNat 92, Char.ofNat 98] by decide]
          simp only [List.cons_append, List.nil_append]
          rw [readJsonBodyF_take f _ _ _ (jsonStep_esc_8 _), ih f rest hsafecs hfc]
          rfl
        · rw [char_eq_ofNat_of_toNat_eq h9,
            show goQuoteChar (Char.ofNat 9) = [Char.ofNat 92, Char.ofNat 116] by decide]
          simp only [List.cons_append, List.nil_append]
          rw [readJsonBodyF_take f _ _ _ (jsonStep_esc_9 _), ih f rest hsafecs hfc]
          rfl
        · rw [char_eq_ofNat_of_toNat_eq h10,
            show goQuoteChar (Char.ofNat 10) = [Char.ofNat 92, Char.ofNat 110] by decide]
          simp only [List.cons_append, List.nil_append]
          rw [readJsonBodyF_take f _ _ _ (jsonStep_esc_10 _), ih f rest hsafecs hfc]
          rfl
        · rw [char_eq_ofNat_of_toNat_eq h12,
            show goQuoteChar (Char.ofNat 12) = [Char.ofNat 92, Char.ofNat 102] by decide]
          simp only [List.cons_append, List.nil_append]
          rw [readJsonBodyF_take f _ _ _ (jsonStep_esc_12 _), ih f rest hsafecs hfc]
          rfl
        · rw [char_eq_ofNat_of_toNat_eq h13,
            show goQuoteChar (Char.ofNat 13) = [Char.ofNat 92, Char.ofNat 114] by decide]
          simp only [List.cons_append, List.nil_append]
          rw [readJsonBodyF_take f _ _ _ (jsonStep_esc_13 _), ih f rest hsafecs hfc]
          rfl

theorem readJsonBody_goQuoteList (l rest : List Char)
    (hsafe : ∀ c ∈ l, jsonSafe c = true) :
    readJsonBody (goQuoteList l ++ Char.ofNat 34 :: rest) = some (l, rest) := by
  unfold readJsonBody
  apply readJsonBodyF_goQuoteList l _ rest hsafe
  have h1 := goQuoteList_length_ge l
  simp only [List.length_append, List.length_cons]
  omega

theorem natDigitsAux_all_digit : ∀ (fuel n : Nat), n < fuel →
    ∀ c ∈ natDigitsAux fuel n, isDigitChar c = true := by
  intro fuel
  induction fuel with
  | zero =>
    intro n h
    omega
  | succ f ih =>
    intro n h c hc
    unfold natDigitsAux at hc
    split_ifs at hc with h10
    · simp only [List.mem_singleton] at hc
      subst hc
      unfold isDigitChar
      rw [char_toNat_ofNat _ (by omega)]
      simp only [Bool.and_eq_true, decide_eq_true_eq]
      omega
    · rw [List.mem_append] at hc
      rcases hc with hc | hc
      · exact ih (n / 10) (by omega) c hc
      · simp only [List.mem_singleton] at hc
        subst hc
        unfold isDigitChar
        rw [char_toNat_ofNat _ (by omega)]
        simp only [Bool.and_eq_true, decide_eq_true_eq]
        omega

theorem digitsToNat_natDigitsAux : ∀ (fuel n : Nat), n < fuel →
    digitsToNat (natDigitsAux fuel n) = n := by
  intro fuel
  induction fuel with
  | zero =>
    intro n h
    omega
  | succ f ih =>
    intro n h
    unfold natDigitsAux
    split_ifs with h10
    · unfold digitsToNat
      simp only [List.foldl_cons, List.foldl_nil]
      rw [char_toNat_ofNat _ (by omega)]
      omega
    · unfold digitsToNat
      rw [List.foldl_append]
      have ih' : digitsToNat (natDigitsAux f (n / 10)) = n / 10 := ih (n / 10) (by omega)
      unfold digitsToNat at ih'
      rw [ih']
      simp only [List.foldl_cons, List.foldl_nil]
      rw [char_toNat_ofNat _ (by omega)]
      omega

theorem natDigits_all_digit (n : Nat) : ∀ c ∈ natDigits n, isDigitChar c = true :=
  natDigitsAux_all_digit (n + 1) n (by omega)

theorem digitsToNat_natDigits (n : Nat) : digitsToNat (natDigits n) = n :=
  digitsToNat_natDigitsAux (n + 1) n (by omega)

theorem natDigits_ne_nil (n : Nat) : natDigits n ≠ [] := by
  unfold natDigits natDigitsAux
  split_ifs
  · simp
  · simp

theorem takeWhile_append_all (p : Char → Bool) (l l' : List Char)
    (h : ∀ c ∈ l, p c = true) : (l ++ l').takeWhile p = l ++ l'.takeWhile p := by
  induction l with
  | nil => simp
  | cons c cs ih =>
    simp only [List.cons_append, List.takeWhile_cons]
    rw [h c (by simp), ih (fun d hd => h d (by simp [hd]))]
    simp

theorem dropWhile_append_all (p : Char → Bool) (l l' : List Char)
    (h : ∀ c ∈ l, p c = true) : (l ++ l').dropWhile p = l'.dropWhile p := by
  induction l with
  | nil => simp
  | cons c cs ih =>
    simp only [List.cons_append, List.dropWhile_cons]
    rw [h c (by simp), ih (fun d hd => h d (by simp [hd]))]
    simp

theorem readNat_natDigits_append (n : Nat) (c : Char) (rest : List Char)
    (hc : isDigitChar c = false) :
    readNat (natDigits n ++ c :: rest) = some (n, c :: rest) := by
  unfold readNat
  rw [takeWhile_append_all _ _ _ (natDigits_all_digit n),
    dropWhile_append_all _ _ _ (natDigits_all_digit n),
    List.takeWhile_cons, List.dropWhile_cons, hc]
  simp only [Bool.false_eq_true, if_false, List.append_nil]
  obtain ⟨d, ds, hds⟩ := List.exists_cons_of_ne_nil (natDigits_ne_nil n)
  rw [hds]
  show some (digitsToNat (d :: ds), c :: rest) = some (n, c :: rest)
  rw [← hds, digitsToNat_natDigits]

theorem dropLit_append (ls rest : List Char) : dropLit ls (ls ++ rest) = some rest := by
  induction ls with
  | nil => rfl
  | cons c cs ih => simp [dropLit, ih]

theorem readGoStr_goQuote (l r : List Char) :
    readGoStr (Char.ofNat 34 :: (goQuoteList l ++ Char.ofNat 34 :: r)) = some (l, r) := by
  show (if Char.ofNat 34 = Char.ofNat 34
    then readGoBody (goQuoteList l ++ Char.ofNat 34 :: r) else none) = some (l, r)
  rw [if_pos rfl]
  exact readGoBody_goQuoteList l r

theorem readJsonStr_goQuote (l r : List Char) (hsafe : ∀ c ∈ l, jsonSafe c = true) :
    readJsonStr (Char.ofNat 34 :: (goQuoteList l ++ Char.ofNat 34 :: r)) = some (l, r) := by
  show (if Char.ofNat 34 = Char.ofNat 34
    then readJsonBody (goQuoteList l ++ Char.ofNat 34 :: r) else none) = some (l, r)
  rw [if_pos rfl]
  exact readJsonBody_goQuoteList l r hsafe

theorem expLit_split : litExpirationComma = Char.ofNat 44 :: litExpiration := by
  decide

theorem parseProfileTail_close :
    parseProfileTail [Char.ofNat 125] = some none := by
  simp [parseProfileTail]

theorem parseProfileTail_exp (x : Int) (hx : 0 < x) :
    parseProfileTail (Char.ofNat 44 ::
      (litExpiration ++ (intDigits x ++ [Char.ofNat 125]))) = some (some x) := by
  simp only [parseProfileTail]
  split
  next h => exact absurd h (by decide)
  next h =>
    rw [dropLit_append, if_pos trivial]
    show (match readNat (intDigits x ++ [Char.ofNat 125]) with
      | none => none
      | some (n, r7) =>
        if r7 = [Char.ofNat 125] then some (some (n : Int)) else none) = some (some x)
    rw [show intDigits x = natDigits x.toNat by unfold intDigits; rw [if_neg (by omega)],
      readNat_natDigits_append x.toNat _ _ (by decide)]
    show (if ([Char.ofNat 125] : List Char) = [Char.ofNat 125]
      then some (some ((x.toNat : Nat) : Int)) else none) = some (some x)
    rw [if_pos rfl, Int.toNat_of_nonneg (by omega)]

theorem parseProfileWith_goQuote_go (emoji text : List Char) (exp : Int) :
    parseProfileWith readGoStr (profileChars emoji text exp)
      = some (String.mk text, String.mk emoji, if 0 < exp then some exp else none) := by
  by_cases hx : 0 < exp
  · unfold profileChars parseProfileWith
    rw [if_pos hx, if_pos hx, expLit_split]
    simp only [List.append_assoc, List.cons_append, List.singleton_append, List.nil_append]
    rw [dropLit_append]
    simp only [Option.some_bind]
    rw [readGoStr_goQuote]
    simp only [Option.some_bind]
    rw [dropLit_append]
    simp only [Option.some_bind]
    rw [readGoStr_goQuote]
    simp only [Option.some_bind]
    rw [parseProfileTail_exp exp hx]
    simp only [Option.map_some']
  · unfold profileChars parseProfileWith
    rw [if_neg hx, if_neg hx]
    simp only [List.append_assoc, List.cons_append, List.singleton_append, List.nil_append]
    rw [dropLit_append]
    simp only [Option.some_bind]
    rw [readGoStr_goQuote]
    simp only [Option.some_bind]
    rw [dropLit_append]
    simp only [Option.some_bind]
    rw [readGoStr_goQuote]
    simp only [Option.some_bind]
    rw [parseProfileTail_close]
    simp only [Option.map_some']

theorem parseProfileWith_goQuote_json (emoji text : List Char) (exp : Int)
    (hse : ∀ c ∈ emoji, jsonSafe c = true) (hst : ∀ c ∈ text, jsonSafe c = true) :
    parseProfileWith readJsonStr (profileChars emoji text exp)
      = some (String.mk text, String.mk emoji, if 0 < exp then some exp else none) := by
  by_cases hx : 0 < exp
  · unfold profileChars parseProfileWith
    rw [if_pos hx, if_pos hx, expLit_split]
    simp only [List.append_assoc, List.cons_append, List.singleton_append, List.nil_append]
    rw [dropLit_append]
    simp only [Option.some_bind]
    rw [readJsonStr_goQuote _ _ hst]
    simp only [Option.some_bind]
    rw [dropLit_append]
    simp only [Option.some_bind]
    rw [readJsonStr_goQuote _ _ hse]
    simp only [Option.some_bind]
    rw [parseProfileTail_exp exp hx]
    simp only [Option.map_some']
  · unfold profileChars parseProfileWith
    rw [if_neg hx, if_neg hx]
    simp only [List.append_assoc, List.cons_append, List.singleton_append, List.nil_append]
    rw [dropLit_append]
    simp only [Option.some_bind]
    rw [readJsonStr_goQuote _ _ hst]
    simp only [Option.some_bind]
    rw [dropLit_append]
    simp only [Option.some_bind]
    rw [readJsonStr_goQuote _ _ hse]
    simp only [Option.some_bind]
    rw [parseProfileTail_close]
    simp only [Option.map_some']

theorem parseProfile_go (emoji text : String) (exp : Int) :
    parseProfileWith readGoStr (setStatusProfile emoji text exp).data
      = some (text, emoji, if 0 < exp then some exp else none) := by
  unfold setStatusProfile
  rw [string_data_mk, parseProfileWith_goQuote_go, string_mk_data, string_mk_data]

theorem parseProfile_json (emoji text : String) (exp : Int)
    (hse : ∀ c ∈ emoji.data, jsonSafe c = true) (hst : ∀ c ∈ text.data, jsonSafe c = true) :
    parseProfileWith readJsonStr (setStatusProfile emoji text exp).data
      = some (text, emoji, if 0 < exp then some exp else none) := by
  unfold setStatusProfile
  rw [string_data_mk, parseProfileWith_goQuote_json emoji.data text.data exp hse hst,
    string_mk_data, string_mk_data]

theorem string_append_data (s t : String) : (s ++ t).data = s.data ++ t.data := rfl

theorem string_ext {s t : String} (h : s.data = t.data) : s = t := by
  cases s
  cases t
  cases h
  rfl

theorem substr_of_data (t s : String) (a b : List Char)
    (h : s.data = a ++ (t.data ++ b)) : Substr t s := by
  refine ⟨String.mk a, String.mk b, ?_⟩
  apply string_ext
  simp only [string_append_data, string_data_mk, h, List.append_assoc]

theorem substr_goJoin (t sep : String) (l : List String) (h : t ∈ l) :
    Substr t (goJoin sep l) := by
  induction l with
  | nil => cases h
  | cons x xs ih =>
    match xs with
    | [] =>
      rcases List.mem_singleton.mp h with rfl
      exact substr_of_data t (goJoin sep [t]) [] [] (by simp [goJoin])
    | y :: ys =>
      rcases List.mem_cons.mp h with rfl | hmem
      · exact substr_of_data t _ [] (sep.data ++ (goJoin sep (y :: ys)).data)
          (by simp [goJoin, string_append_data, List.append_assoc])
      · obtain ⟨a, b, hab⟩ := ih hmem
        refine substr_of_data t _ (x.data ++ sep.data ++ a.data) b.data ?_
        show (x ++ sep ++ goJoin sep (y :: ys)).data = _
        rw [hab]
        simp [string_append_data, List.append_assoc]

theorem mem_keys_upsert (m : List (String × String)) (k v a : String) :
    a ∈ (upsert m k v).map Prod.fst ↔ a = k ∨ a ∈ m.map Prod.fst := by
  induction m with
  | nil => simp [upsert]
  | cons p rest ih =>
    by_cases h : p.1 = k
    · rw [show upsert (p :: rest) k v = (k, v) :: rest by
        cases p
        simp_all [upsert]]
      simp only [List.map_cons, List.mem_cons, ih]
      constructor
      · rintro (rfl | hr)
        · exact Or.inl rfl
        · exact Or.inr (Or.inr hr)
      · rintro (rfl | (rfl | hr))
        · exact Or.inl rfl
        · rw [h]
          exact Or.inl rfl
        · exact Or.inr hr
    · rw [show upsert (p :: rest) k v = p :: upsert rest k v by
        cases p
        simp_all [upsert]]
      simp only [List.map_cons, List.mem_cons, ih]
      tauto

theorem upsert_ne_nil (m : List (String × String)) (k v : String) : upsert m k v ≠ [] := by
  cases m with
  | nil => simp [upsert]
  | cons p rest =>
    cases p
    unfold upsert
    split_ifs
    · simp
    · simp

theorem foldl_upsert_ne_nil (es : List (String × String)) :
    ∀ (m : List (String × String)), m ≠ [] →
      es.foldl (fun m e => upsert m e.1 e.2) m ≠ [] := by
  induction es with
  | nil => intro m hm; simpa using hm
  | cons e es ih =>
    intro m hm
    simp only [List.foldl_cons]
    exact ih _ (upsert_ne_nil m e.1 e.2)

theorem mem_keys_foldl_upsert (es : List (String × String)) :
    ∀ (m : List (String × String)) (a : String),
      a ∈ (es.foldl (fun m e => upsert m e.1 e.2) m).map Prod.fst ↔
        a ∈ m.map Prod.fst ∨ a ∈ es.map Prod.fst := by
  induction es with
  | nil => simp
  | cons e es ih =>
    intro m a
    simp only [List.foldl_cons, List.map_cons, List.mem_cons]
    rw [ih, mem_keys_upsert]
    tauto

theorem mem_keys_tokensMap (teams : List String) (lines : List String) (a : String) :
    a ∈ (tokensMap teams lines).map Prod.fst ↔ a ∈ (scanEntries teams lines).map Prod.fst := by
  unfold tokensMap
  rw [mem_keys_foldl_upsert]
  simp

theorem tokensMap_eq_nil_iff (teams : List String) (lines : List String) :
    tokensMap teams lines = [] ↔ scanEntries teams lines = [] := by
  unfold tokensMap
  cases h : scanEntries teams lines with
  | nil => simp
  | cons e es =>
    simp only [List.foldl_cons]
    constructor
    · intro hc
      exact absurd hc (foldl_upsert_ne_nil es _ (upsert_ne_nil [] e.1 e.2))
    · intro hc
      cases hc

theorem scanEntries_cons_skip (teams : List String) (l : String) (ls : List String)
    (h : lineClass l = .skip) : scanEntries teams (l :: ls) = scanEntries teams ls := by
  rw [scanEntries, h]
  rfl

theorem scanEntries_cons_bad (teams : List String) (l : String) (ls : List String)
    (h : lineClass l = .bad) : scanEntries teams (l :: ls) = scanEntries teams ls := by
  rw [scanEntries, h]
  rfl

theorem scanEntries_cons_entry (teams : List String) (l : String) (ls : List String)
    (t tok : String) (h : lineClass l = .entry t tok) :
    scanEntries teams (l :: ls)
      = (if includeTeam teams t = true then [(t, tok)] else []) ++ scanEntries teams ls := by
  rw [scanEntries, h]

theorem sourceNames_cons_skip (l : String) (ls : List String) (h : lineClass l = .skip) :
    sourceNames (l :: ls) = sourceNames ls := by
  unfold sourceNames
  rw [List.filterMap_cons, h]

theorem sourceNames_cons_bad (l : String) (ls : List String) (h : lineClass l = .bad) :
    sourceNames (l :: ls) = sourceNames ls := by
  unfold sourceNames
  rw [List.filterMap_cons, h]

theorem sourceNames_cons_entry (l : String) (ls : List String) (t tok : String)
    (h : lineClass l = .entry t tok) : sourceNames (l :: ls) = t :: sourceNames ls := by
  unfold sourceNames
  rw [List.filterMap_cons, h]

theorem scanWarns_cons_skip (n : Nat) (l : String) (ls : List String)
    (h : lineClass l = .skip) : scanWarns n (l :: ls) = scanWarns (n + 1) ls := by
  rw [scanWarns, h]
  rfl

theorem scanWarns_cons_bad (n : Nat) (l : String) (ls : List String)
    (h : lineClass l = .bad) :
    scanWarns n (l :: ls) = warnMsg n l :: scanWarns (n + 1) ls := by
  rw [scanWarns, h]
  rfl

theorem scanWarns_cons_entry (n : Nat) (l : String) (ls : List String) (t tok : String)
    (h : lineClass l = .entry t tok) : scanWarns n (l :: ls) = scanWarns (n + 1) ls := by
  rw [scanWarns, h]
  rfl

theorem mem_scanEntries_keys (teams : List String) (lines : List String) (a : String) :
    a ∈ (scanEntries teams lines).map Prod.fst ↔
      includeTeam teams a = true ∧ a ∈ sourceNames lines := by
  induction lines with
  | nil => simp [scanEntries, sourceNames]
  | cons l rest ih =>
    cases hcl : lineClass l with
    | skip =>
      rw [scanEntries_cons_skip _ _ _ hcl, sourceNames_cons_skip _ _ hcl]
      exact ih
    | bad =>
      rw [scanEntries_cons_bad _ _ _ hcl, sourceNames_cons_bad _ _ hcl]
      exact ih
    | entry t tok =>
      rw [scanEntries_cons_entry _ _ _ _ _ hcl, sourceNames_cons_entry _ _ _ _ hcl]
      by_cases hinc : includeTeam teams t = true
      · rw [if_pos hinc]
        simp only [List.singleton_append, List.map_cons, List.mem_cons]
        rw [ih]
        constructor
        · rintro (rfl | ⟨h1, h2⟩)
          · exact ⟨hinc, Or.inl rfl⟩
          · exact ⟨h1, Or.inr h2⟩
        · rintro ⟨h1, rfl | h2⟩
          · exact Or.inl rfl
          · exact Or.inr ⟨h1, h2⟩
      · rw [if_neg hinc]
        simp only [List.nil_append, List.mem_cons]
        rw [ih]
        constructor
        · rintro ⟨h1, h2⟩
          exact ⟨h1, Or.inr h2⟩
        · rintro ⟨h1, rfl | h2⟩
          · exact absurd h1 hinc
          · exact ⟨h1, h2⟩

theorem includeTeam_of_ne_nil (teams : List String) (a : String) (h : teams ≠ []) :
    includeTeam teams a = true ↔ a ∈ teams := by
  unfold includeTeam
  rw [if_neg (by simpa [List.isEmpty_iff] using h)]
  simp [List.elem_iff]

theorem scanWarns_mem : ∀ (lines : List String) (n i : Nat) (h : i < lines.length),
    lineClass (lines.get ⟨i, h⟩) = .bad →
    warnMsg (n + i) (lines.get ⟨i, h⟩) ∈ scanWarns n lines := by
  intro lines
  induction lines with
  | nil =>
    intro n i h
    simp at h
  | cons l rest ih =>
    intro n i h hbad
    match i with
    | 0 =>
      simp only [List.get] at hbad ⊢
      unfold scanWarns
      rw [hbad]
      simp
    | i + 1 =>
      simp only [List.get] at hbad ⊢
      unfold scanWarns
      have := ih (n + 1) i (by simpa using h) hbad
      rw [List.mem_append]
      right
      have harith : n + 1 + i = n + (i + 1) := by omega
      rw [← harith]
      exact this

theorem lineClass_empty : lineClass "" = .skip := by decide

theorem scanEntries_set_bad : ∀ (lines : List String) (teams : List String) (i : Nat),
    (∀ h : i < lines.length, lineClass (lines.get ⟨i, h⟩) = .bad) →
    scanEntries teams (lines.set i "") = scanEntries teams lines := by
  intro lines
  induction lines with
  | nil => intro teams i _; rfl
  | cons l rest ih =>
    intro teams i hbad
    match i with
    | 0 =>
      have hb := hbad (by simp)
      simp only [List.get] at hb
      simp only [List.set]
      unfold scanEntries
      rw [hb, lineClass_empty]
    | i + 1 =>
      simp only [List.set]
      unfold scanEntries
      rw [ih teams i (fun h => by simpa using hbad (by simpa using h))]

theorem validate_noAction (f : Flags) (now : Int)
    (h : ¬(f.clear = true ∨ f.away = true ∨ f.online = true ∨ f.emoji ≠ "" ∨ f.text ≠ "")) :
    validate f now = .error .noAction := by
  unfold validate
  rw [if_pos h]

theorem validate_clearStatusFlags (f : Flags) (now : Int) (hc : f.clear = true)
    (he : f.emoji ≠ "" ∨ f.text ≠ "") : validate f now = .error .clearStatusFlags := by
  unfold validate
  rw [if_neg (fun hno => hno (Or.inl hc)), if_pos ⟨hc, he⟩]

theorem validate_awayOnline (f : Flags) (now : Int)
    (h2 : ¬(f.clear = true ∧ (f.emoji ≠ "" ∨ f.text ≠ ""))) (ho : f.online = true)
    (ha : f.away = true) : validate f now = .error .awayOnline := by
  unfold validate
  rw [if_neg (fun hno => hno (Or.inr (Or.inl ha))), if_neg h2, if_pos ⟨ho, ha⟩]

theorem validate_bothExp (f : Flags) (now : Int)
    (h1 : f.clear = true ∨ f.away = true ∨ f.online = true ∨ f.emoji ≠ "" ∨ f.text ≠ "")
    (h2 : ¬(f.clear = true ∧ (f.emoji ≠ "" ∨ f.text ≠ "")))
    (h3 : ¬(f.online = true ∧ f.away = true))
    (h4 : f.expiresAt ≠ "" ∧ 0 < f.expiresIn) : validate f now = .error .bothExp := by
  unfold validate
  rw [if_neg (not_not_intro h1), if_neg h2, if_neg h3, if_pos h4]

theorem validate_eq_compute (f : Flags) (now : Int)
    (h1 : f.clear = true ∨ f.away = true ∨ f.online = true ∨ f.emoji ≠ "" ∨ f.text ≠ "")
    (h2 : ¬(f.clear = true ∧ (f.emoji ≠ "" ∨ f.text ≠ "")))
    (h3 : ¬(f.online = true ∧ f.away = true))
    (h4 : ¬(f.expiresAt ≠ "" ∧ 0 < f.expiresIn)) :
    validate f now = (match computeExpiration f now with
      | .error e => .error e
      | .ok exp => if 0 < exp ∧ f.clear = true then .error .expWithClear else .ok exp) := by
  unfold validate
  rw [if_neg (not_not_intro h1), if_neg h2, if_neg h3, if_neg h4]

theorem computeExpiration_rel (f : Flags) (now : Int) (hin : 0 < f.expiresIn) :
    computeExpiration f now = .ok ((now + f.expiresIn).fdiv 1000000000) := by
  unfold computeExpiration
  rw [if_pos hin]

theorem computeExpiration_abs (f : Flags) (now : Int) (dt : DateTime)
    (hin : ¬0 < f.expiresIn) (hat : f.expiresAt ≠ "")
    (hp : parseISO f.expiresAt = .ok dt) : computeExpiration f now = .ok (unixOf dt) := by
  unfold computeExpiration
  rw [if_neg hin, if_pos hat, hp]

theorem computeExpiration_abs_err (f : Flags) (now : Int) (e : String)
    (hin : ¬0 < f.expiresIn) (hat : f.expiresAt ≠ "")
    (hp : parseISO f.expiresAt = .error e) :
    computeExpiration f now = .error (.badExpiresAt f.expiresAt e) := by
  unfold computeExpiration
  rw [if_neg hin, if_pos hat, hp]

theorem computeExpiration_none (f : Flags) (now : Int) (hin : ¬0 < f.expiresIn)
    (hat : f.expiresAt = "") : computeExpiration f now = .ok 0 := by
  unfold computeExpiration
  rw [if_neg hin, if_neg (fun hne => hne hat)]

theorem presenceOf_ne_empty (f : Flags) (hp : f.away = true ∨ f.online = true) :
    presenceOf f ≠ "" := by
  unfold presenceOf
  by_cases ho : f.online = true
  · rw [if_pos ho]
    decide
  · rw [if_neg ho]
    rcases hp with ha | ho2
    · rw [if_pos ha]
      decide
    · exact absurd ho2 ho

theorem runMain_validate_err (f : Flags) (now : Int) (cfg : Except String (List String))
    (oracle : Oracle) (e : MainErr) (hv : validate f now = .error e) :
    runMain f now cfg oracle = ⟨e.code, [e.msg ++ "\n"], []⟩ := by
  unfold runMain
  rw [hv]

theorem runMain_cfg_err (f : Flags) (now : Int) (cfg : Except String (List String))
    (oracle : Oracle) (exp : Int) (ws : List String) (e : GetTokensErr)
    (hv : validate f now = .ok exp) (ht : getTokens f.args cfg = (ws, .error e)) :
    runMain f now cfg oracle = ⟨(MainErr.configRead (renderTokensErr e)).code,
      ws ++ [(MainErr.configRead (renderTokensErr e)).msg ++ "\n"], []⟩ := by
  unfold runMain
  rw [hv, ht]

theorem runMain_ok (f : Flags) (now : Int) (cfg : Except String (List String))
    (oracle : Oracle) (exp : Int) (ws : List String) (toks : List (String × String))
    (hv : validate f now = .ok exp) (ht : getTokens f.args cfg = (ws, .ok toks)) :
    runMain f now cfg oracle
      = ⟨0, ws ++ (toks.map fun p => (runTeam f exp oracle p.1 p.2).2).flatten,
          (toks.map fun p => (runTeam f exp oracle p.1 p.2).1).flatten⟩ := by
  unfold runMain
  rw [hv, ht]

theorem getTokens_ok_lines (teams lines : List String) :
    getTokens teams (.ok lines)
      = (scanWarns 1 lines,
         if tokensMap teams lines = [] then .error (.noTokens teams)
         else .ok (tokensMap teams lines)) := rfl

theorem substr_append_left (t s pre : String) (h : Substr t s) : Substr t (pre ++ s) := by
  obtain ⟨a, b, hab⟩ := h
  refine substr_of_data t _ (pre.data ++ a.data) b.data ?_
  rw [string_append_data, hab]
  simp [string_append_data, List.append_assoc]

theorem runTeam_warn_clear (f : Flags) (exp : Int) (oracle : Oracle) (team token e : String)
    (hc : f.clear = true) (ho : oracle team .clearStatus = some e) :
    clearWarnMsg team e ∈ (runTeam f exp oracle team token).2 := by
  unfold runTeam
  show clearWarnMsg team e ∈
    (if f.clear = true then failMsgs (oracle team .clearStatus) (clearWarnMsg team) else [])
      ++ _ ++ _
  rw [if_pos hc, ho]
  simp [failMsgs]

theorem runTeam_warn_status (f : Flags) (exp : Int) (oracle : Oracle) (team token e : String)
    (hs : f.emoji ≠ "" ∨ f.text ≠ "") (ho : oracle team .setStatus = some e) :
    statusWarnMsg team e ∈ (runTeam f exp oracle team token).2 := by
  unfold runTeam
  show statusWarnMsg team e ∈ _
      ++ (if f.emoji ≠ "" ∨ f.text ≠ "" then
            failMsgs (oracle team .setStatus) (statusWarnMsg team) else [])
      ++ _
  rw [if_pos hs, ho]
  simp [failMsgs]

theorem runTeam_warn_presence (f : Flags) (exp : Int) (oracle : Oracle) (team token e : String)
    (hp : presenceOf f ≠ "") (ho : oracle team .setPresence = some e) :
    presenceWarnMsg (presenceOf f) team e ∈ (runTeam f exp oracle team token).2 := by
  unfold runTeam
  show presenceWarnMsg (presenceOf f) team e ∈ _ ++ _
      ++ (if presenceOf f ≠ "" then
            failMsgs (oracle team .setPresence) (presenceWarnMsg (presenceOf f) team) else [])
  rw [if_pos hp, ho]
  simp [failMsgs]

theorem mem_runMain_stderr_of_team (f : Flags) (now : Int) (cfg : Except String (List String))
    (oracle : Oracle) (exp : Int) (ws : List String) (toks : List (String × String))
    (team token msg : String) (hv : validate f now = .ok exp)
    (ht : getTokens f.args cfg = (ws, .ok toks)) (hmem : (team, token) ∈ toks)
    (hin : msg ∈ (runTeam f exp oracle team token).2) :
    msg ∈ (runMain f now cfg oracle).stderr := by
  rw [runMain_ok f now cfg oracle exp ws toks hv ht]
  show msg ∈ ws ++ (toks.map fun p => (runTeam f exp oracle p.1 p.2).2).flatten
  rw [List.mem_append, List.mem_flatten]
  right
  exact ⟨(runTeam f exp oracle team token).2,
    List.mem_map_of_mem (fun p => (runTeam f exp oracle p.1 p.2).2) hmem, hin⟩

/-- C5: for every flag combination where clear is set and emoji or text is
non-empty, validation fails with the usage error (exit code 3, the message of
the clear/status conflict) and the process terminates before any remote call
is issued to any account. -/
theorem C5_clear_with_status_never_calls (f : Flags) (now : Int)
    (cfg : Except String (List String)) (oracle : Oracle)
    (hc : f.clear = true) (he : f.emoji ≠ "" ∨ f.text ≠ "") :
    (runMain f now cfg oracle).exitCode = 3 ∧
    (runMain f now cfg oracle).stderr = [MainErr.clearStatusFlags.msg ++ "\n"] ∧
    (runMain f now cfg oracle).calls = [] := by
  rw [runMain_validate_err f now cfg oracle _ (validate_clearStatusFlags f now hc he)]
  exact ⟨rfl, rfl, rfl⟩

theorem C5_witness :
    (runMain ⟨false, false, true, false, ":x:", "", 0, "", []⟩ 0 (.ok ["teamA tok1"])
      (fun _ _ => none)).exitCode = 3 ∧
    (runMain ⟨false, false, true, false, ":x:", "", 0, "", []⟩ 0 (.ok ["teamA tok1"])
      (fun _ _ => none)).stderr = [MainErr.clearStatusFlags.msg ++ "\n"] ∧
    (runMain ⟨false, false, true, false, ":x:", "", 0, "", []⟩ 0 (.ok ["teamA tok1"])
      (fun _ _ => none)).calls = [] :=
  C5_clear_with_status_never_calls _ 0 _ _ (by decide) (Or.inl (by decide))

/-- C9: validation accepts -clear combined with -away or with -online (no
rejection), and for each processed account the worker issues the clear-status
call first and the set-presence call afterwards. -/
theorem C9_clear_with_presence_accepted_ordered (f : Flags) (now : Int)
    (hc : f.clear = true) (he : f.emoji = "") (htx : f.text = "")
    (hin : ¬0 < f.expiresIn) (hat : f.expiresAt = "")
    (hp : f.away = true ∨ f.online = true) (hno : ¬(f.online = true ∧ f.away = true)) :
    validate f now = .ok 0 ∧
    ∀ (oracle : Oracle) (team token : String),
      (runTeam f 0 oracle team token).1
        = [clearStatusCall team token, setPresenceCall team token (presenceOf f)] := by
  constructor
  · rw [validate_eq_compute f now (Or.inl hc)
      (by rintro ⟨_, hor⟩; rcases hor with h | h; exact h he; exact h htx)
      hno (by rintro ⟨hne, _⟩; exact hne hat),
      computeExpiration_none f now hin hat]
    show (if 0 < (0 : Int) ∧ f.clear = true then Except.error MainErr.expWithClear
      else Except.ok 0) = Except.ok 0
    rw [if_neg (by rintro ⟨h0, _⟩; omega)]
  · intro oracle team token
    unfold runTeam
    show (if f.clear = true then [clearStatusCall team token] else [])
        ++ (if f.emoji ≠ "" ∨ f.text ≠ "" then
              [setStatusCall team token f.emoji f.text 0] else [])
        ++ (if presenceOf f ≠ "" then [setPresenceCall team token (presenceOf f)] else [])
      = [clearStatusCall team token, setPresenceCall team token (presenceOf f)]
    rw [if_pos hc, if_neg (by rintro (h | h); exact h he; exact h htx),
      if_pos (presenceOf_ne_empty f hp)]
    rfl

theorem C9_witness :
    validate ⟨true, false, true, false, "", "", 0, "", []⟩ 0 = .ok 0 ∧
    (runTeam ⟨true, false, true, false, "", "", 0, "", []⟩ 0 (fun _ _ => none)
      "teamA" "tok1").1
      = [clearStatusCall "teamA" "tok1",
         setPresenceCall "teamA" "tok1"
           (presenceOf ⟨true, false, true, false, "", "", 0, "", []⟩)] := by
  have h := C9_clear_with_presence_accepted_ordered ⟨true, false, true, false, "", "", 0, "", []⟩
    0 (by decide) (by decide) (by decide) (by decide) (by decide) (Or.inl (by decide))
    (by rintro ⟨ho, _⟩; cases ho)
  exact ⟨h.1, h.2 (fun _ _ => none) "teamA" "tok1"⟩

/-- C1: for every invocation that passes flag validation and credential
loading, the process exits with code 0 regardless of remote-call outcomes,
and every failed remote call (clear-status, set-custom-status, set-presence)
on any account is reported on stderr with a message naming the account and
the failed sub-action; conversely a non-zero exit code only arises from a
validation error or a credential-loading error. -/
theorem C1_remote_failures_nonfatal_and_logged :
    (∀ (f : Flags) (now : Int) (cfg : Except String (List String)) (oracle : Oracle)
        (exp : Int) (ws : List String) (toks : List (String × String)),
      validate f now = .ok exp → getTokens f.args cfg = (ws, .ok toks) →
      (runMain f now cfg oracle).exitCode = 0 ∧
      ∀ team token, (team, token) ∈ toks →
        (f.clear = true → ∀ e, oracle team SubAction.clearStatus = some e →
          clearWarnMsg team e ∈ (runMain f now cfg oracle).stderr) ∧
        ((f.emoji ≠ "" ∨ f.text ≠ "") → ∀ e, oracle team SubAction.setStatus = some e →
          statusWarnMsg team e ∈ (runMain f now cfg oracle).stderr) ∧
        (presenceOf f ≠ "" → ∀ e, oracle team SubAction.setPresence = some e →
          presenceWarnMsg (presenceOf f) team e ∈ (runMain f now cfg oracle).stderr)) ∧
    (∀ (f : Flags) (now : Int) (cfg : Except String (List String)) (oracle : Oracle),
      (runMain f now cfg oracle).exitCode ≠ 0 →
      (∃ e, validate f now = .error e) ∨ (∃ ws e, getTokens f.args cfg = (ws, .error e))) := by
  constructor
  · intro f now cfg oracle exp ws toks hv ht
    constructor
    · rw [runMain_ok f now cfg oracle exp ws toks hv ht]
    · intro team token hmem
      refine ⟨?_, ?_, ?_⟩
      · intro hc e ho
        exact mem_runMain_stderr_of_team f now cfg oracle exp ws toks team token _ hv ht hmem
          (runTeam_warn_clear f exp oracle team token e hc ho)
      · intro hs e ho
        exact mem_runMain_stderr_of_team f now cfg oracle exp ws toks team token _ hv ht hmem
          (runTeam_warn_status f exp oracle team token e hs ho)
      · intro hpr e ho
        exact mem_runMain_stderr_of_team f now cfg oracle exp ws toks team token _ hv ht hmem
          (runTeam_warn_presence f exp oracle team token e hpr ho)
  · intro f now cfg oracle hnz
    cases hv : validate f now with
    | error e => exact Or.inl ⟨e, rfl⟩
    | ok exp =>
      rcases ht : getTokens f.args cfg with ⟨ws, res⟩
      cases res with
      | error e => exact Or.inr ⟨ws, e, rfl⟩
      | ok toks =>
        exfalso
        apply hnz
        rw [runMain_ok f now cfg oracle exp ws toks hv ht]

theorem C1_witness :
    (runMain ⟨false, false, true, false, "", "", 0, "", []⟩ 0 (.ok ["teamA tok1"])
      (fun _ _ => some "boom")).exitCode = 0 ∧
    clearWarnMsg "teamA" "boom" ∈
      (runMain ⟨false, false, true, false, "", "", 0, "", []⟩ 0 (.ok ["teamA tok1"])
        (fun _ _ => some "boom")).stderr := by
  have h := C1_remote_failures_nonfatal_and_logged.1
    ⟨false, false, true, false, "", "", 0, "", []⟩ 0 (.ok ["teamA tok1"])
    (fun _ _ => some "boom") 0 [] [("teamA", "tok1")] (by decide) (by decide)
  exact ⟨h.1, (h.2 "teamA" "tok1" (by decide)).1 (by decide) "boom" rfl⟩

/-- C6: for every readable credential source and every non-empty account
filter, loading either returns a mapping whose key set is exactly the
intersection of the filter with the account names present in the source, or,
when that intersection is empty, fails with the no-tokens error whose
rendered message names every requested filter account. -/
theorem C6_filter_intersection_or_named_error (teams lines : List String)
    (hne : teams ≠ []) :
    (∀ ws m, getTokens teams (.ok lines) = (ws, .ok m) →
      ∀ n, n ∈ m.map Prod.fst ↔ (n ∈ teams ∧ n ∈ sourceNames lines)) ∧
    (∀ ws e, getTokens teams (.ok lines) = (ws, .error e) →
      e = .noTokens teams ∧ (∀ n, ¬(n ∈ teams ∧ n ∈ sourceNames lines)) ∧
      ∀ t ∈ teams, Substr t (renderTokensErr e)) := by
  have hkeys : ∀ n, n ∈ (tokensMap teams lines).map Prod.fst ↔
      (n ∈ teams ∧ n ∈ sourceNames lines) := by
    intro n
    rw [mem_keys_tokensMap, mem_scanEntries_keys, includeTeam_of_ne_nil teams n hne]
  constructor
  · intro ws m heq n
    rw [getTokens_ok_lines] at heq
    by_cases hnil : tokensMap teams lines = []
    · rw [if_pos hnil] at heq
      cases (Prod.mk.injEq _ _ _ _ ▸ heq).2
    · rw [if_neg hnil] at heq
      have h2 := (Prod.mk.injEq _ _ _ _ ▸ heq).2
      cases h2
      exact hkeys n
  · intro ws e heq
    rw [getTokens_ok_lines] at heq
    by_cases hnil : tokensMap teams lines = []
    · rw [if_pos hnil] at heq
      have h2 := (Prod.mk.injEq _ _ _ _ ▸ heq).2
      cases h2
      refine ⟨rfl, ?_, ?_⟩
      · intro n hn
        have hm := (hkeys n).mpr hn
        rw [hnil] at hm
        simp at hm
      · intro t ht
        show Substr t ("no tokens found for teams: " ++ goJoin ", " teams)
        exact substr_append_left t _ _ (substr_goJoin t ", " teams ht)
    · rw [if_neg hnil] at heq
      cases (Prod.mk.injEq _ _ _ _ ▸ heq).2

theorem C6_witness :
    ((["teamB"] : List String) ≠ [] ∧
      (∀ n, n ∈ ([("teamB", "tok2")] : List (String × String)).map Prod.fst ↔
        (n ∈ ["teamB"] ∧ n ∈ sourceNames ["teamA tok1", "teamB tok2"]))) ∧
    (∀ ws e, getTokens ["zz"] (.ok ["teamA tok1"]) = (ws, .error e) →
      Substr "zz" (renderTokensErr e)) := by
  constructor
  · exact ⟨by decide,
      (C6_filter_intersection_or_named_error ["teamB"] ["teamA tok1", "teamB tok2"]
        (by decide)).1 [] [("teamB", "tok2")] (by decide)⟩
  · intro ws e heq
    exact ((C6_filter_intersection_or_named_error ["zz"] ["teamA tok1"]
      (by decide)).2 ws e heq).2.2 "zz" (by decide)

/-- C7 counterexample: the non-blank, non-comment line "a b c" does not split
into exactly two whitespace-separated tokens, so per the claim it must be
warned about and skipped; getTokens instead accepts it with no warning,
producing the entry ("a", "b") from its first two tokens. -/
theorem C7_counterexample :
    getTokens [] (.ok ["a b c"]) = ([], .ok [("a", "b")]) := by decide

/-- C7 amended: every credential line that is neither blank nor #-prefixed
must yield at least two whitespace-separated tokens; the first two become the
(account, token) entry and any extra tokens are ignored. A line with fewer
than two tokens is reported as a warning carrying its line number and is
skipped (replacing it by a blank line changes no entry), and it never aborts
the load: with a readable source the only load failure is the empty-map
error. -/
theorem C7_amended_short_lines_warned_skipped (lines teams : List String) (i : Nat)
    (hi : i < lines.length) (hbad : lineClass (lines.get ⟨i, hi⟩) = .bad) :
    warnMsg (i + 1) (lines.get ⟨i, hi⟩) ∈ (getTokens teams (.ok lines)).1 ∧
    scanEntries teams (lines.set i "") = scanEntries teams lines ∧
    (∀ ws e, getTokens teams (.ok lines) = (ws, .error e) → e = .noTokens teams) := by
  refine ⟨?_, scanEntries_set_bad lines teams i (fun _ => hbad), ?_⟩
  · show warnMsg (i + 1) (lines.get ⟨i, hi⟩) ∈ scanWarns 1 lines
    have h := scanWarns_mem lines 1 i hi hbad
    rwa [Nat.add_comm 1 i] at h
  · intro ws e heq
    rw [getTokens_ok_lines] at heq
    by_cases hnil : tokensMap teams lines = []
    · rw [if_pos hnil] at heq
      have h2 := (Prod.mk.injEq _ _ _ _ ▸ heq).2
      cases h2
      rfl
    · rw [if_neg hnil] at heq
      cases (Prod.mk.injEq _ _ _ _ ▸ heq).2

theorem C7_amended_witness :
    warnMsg 2 "bad" ∈ (getTokens [] (.ok ["teamA tok1", "bad"])).1 ∧
    scanEntries [] (["teamA tok1", "bad"].set 1 "") = scanEntries [] ["teamA tok1", "bad"] := by
  have h := C7_amended_short_lines_warned_skipped ["teamA tok1", "bad"] [] 1 (by decide)
    (by decide)
  exact ⟨h.1, h.2.1⟩

/-- C8: for every emoji, text and expiration, the payload setStatus builds
carries status_text = text and status_emoji = emoji (decoding the %q-quoted
values recovers exactly the arguments), and it carries a status_expiration
member if and only if the expiration is positive; and clearStatus performs
exactly setStatus("", "", 0), both as a call and as a payload. -/
theorem C8_setStatus_payload_and_clearStatus (emoji text : String) (exp : Int) :
    parseProfileWith readGoStr (setStatusProfile emoji text exp).data
      = some (text, emoji, if 0 < exp then some exp else none) ∧
    (∀ team token, clearStatusCall team token = setStatusCall team token "" "" 0) ∧
    clearStatusProfile = setStatusProfile "" "" 0 :=
  ⟨parseProfile_go emoji text exp, fun _ _ => rfl, rfl⟩

/-- C10 counterexample: for text U+0007 (and empty emoji), the payload built
by setStatus contains the Go escape \a, which is not legal in a JSON string,
so the payload is not a syntactically valid JSON object: the JSON reader
rejects it. -/
theorem C10_counterexample :
    parseProfileWith readJsonStr
      (setStatusProfile "" (String.mk [Char.ofNat 7]) 0).data = none := by
  decide

/-- C10 amended: the profile payload built by string formatting is a
syntactically valid JSON object whose status_text and status_emoji decode
back to exactly the given strings, provided every character of emoji and
text is JSON-safe (printable ASCII, or one of backspace, tab, newline, form
feed, carriage return, whose Go escapes coincide with JSON escapes); for
other control characters Go's %q emits escapes such as \a or \x01 that are
not valid JSON. -/
theorem C10_amended_payload_valid_json_for_safe_chars (emoji text : String) (exp : Int)
    (hse : emoji.data.all jsonSafe = true) (hst : text.data.all jsonSafe = true) :
    parseProfileWith readJsonStr (setStatusProfile emoji text exp).data
      = some (text, emoji, if 0 < exp then some exp else none) :=
  parseProfile_json emoji text exp
    (by simpa [List.all_eq_true] using hse) (by simpa [List.all_eq_true] using hst)

theorem C10_amended_witness :
    parseProfileWith readJsonStr (setStatusProfile ":smile:" "back in 5" 99).data
      = some ("back in 5", ":smile:", some 99) := by
  have h := C10_amended_payload_valid_json_for_safe_chars ":smile:" "back in 5" 99
    (by decide) (by decide)
  simpa using h

/-- C3 counterexample: two distinct flag-validation violations, requesting
no action at all and combining -away with -online, terminate with the same
exit code 3 (as does the clear/custom-status conflict), so the violations do
not each have their own distinct exit code. -/
theorem C3_counterexample :
    validate ⟨false, false, false, false, "", "", 0, "", []⟩ 0 = .error .noAction ∧
    validate ⟨true, true, false, false, "", "", 0, "", []⟩ 0 = .error .awayOnline ∧
    MainErr.noAction.code = MainErr.awayOnline.code ∧
    MainErr.clearStatusFlags.code = MainErr.noAction.code := by
  refine ⟨?_, ?_, rfl, rfl⟩
  · exact validate_noAction _ 0 (by decide)
  · exact validate_awayOnline _ 0 (by decide) (by decide) (by decide)

/-- C3 amended: each flag-validation violation terminates the process with a
stable non-zero exit code: no-action, the clear/custom-status conflict and
the away/online conflict all share exit code 3; the conflicting-expiration
violation exits 4, an unparseable absolute expiration exits 5, and
expiration combined with clear exits 6; a configuration-file read failure
exits 1 and a home-directory resolution failure exits 2. The codes of the
expiration violations, the config failure and the home-directory failure are
distinct from each other and from the shared usage code 3, but the three
usage violations do not have distinct codes. -/
theorem C3_amended_exit_codes :
    (∀ (f : Flags) (now : Int),
      ¬(f.clear = true ∨ f.away = true ∨ f.online = true ∨ f.emoji ≠ "" ∨ f.text ≠ "") →
      validate f now = .error .noAction) ∧
    (∀ (f : Flags) (now : Int), f.clear = true → (f.emoji ≠ "" ∨ f.text ≠ "") →
      validate f now = .error .clearStatusFlags) ∧
    (∀ (f : Flags) (now : Int), ¬(f.clear = true ∧ (f.emoji ≠ "" ∨ f.text ≠ "")) →
      f.online = true → f.away = true → validate f now = .error .awayOnline) ∧
    (∀ (f : Flags) (now : Int),
      (f.clear = true ∨ f.away = true ∨ f.online = true ∨ f.emoji ≠ "" ∨ f.text ≠ "") →
      ¬(f.clear = true ∧ (f.emoji ≠ "" ∨ f.text ≠ "")) →
      ¬(f.online = true ∧ f.away = true) → f.expiresAt ≠ "" → 0 < f.expiresIn →
      validate f now = .error .bothExp) ∧
    (∀ (f : Flags) (now : Int) (e : String),
      (f.clear = true ∨ f.away = true ∨ f.online = true ∨ f.emoji ≠ "" ∨ f.text ≠ "") →
      ¬(f.clear = true ∧ (f.emoji ≠ "" ∨ f.text ≠ "")) →
      ¬(f.online = true ∧ f.away = true) → ¬0 < f.expiresIn → f.expiresAt ≠ "" →
      parseISO f.expiresAt = .error e →
      validate f now = .error (.badExpiresAt f.expiresAt e)) ∧
    (∀ (f : Flags) (now : Int) (dt : DateTime),
      (f.clear = true ∨ f.away = true ∨ f.online = true ∨ f.emoji ≠ "" ∨ f.text ≠ "") →
      ¬(f.clear = true ∧ (f.emoji ≠ "" ∨ f.text ≠ "")) →
      ¬(f.online = true ∧ f.away = true) → ¬0 < f.expiresIn → f.expiresAt ≠ "" →
      parseISO f.expiresAt = .ok dt → 0 < unixOf dt → f.clear = true →
      validate f now = .error .expWithClear) ∧
    (∀ (f : Flags) (now : Int) (cfg : Except String (List String)) (oracle : Oracle)
        (e : MainErr), validate f now = .error e →
      (runMain f now cfg oracle).exitCode = e.code) ∧
    (∀ (f : Flags) (now : Int) (cfg : Except String (List String)) (oracle : Oracle)
        (exp : Int) (ws : List String) (e : GetTokensErr),
      validate f now = .ok exp → getTokens f.args cfg = (ws, .error e) →
      (runMain f now cfg oracle).exitCode = 1) ∧
    (∀ e : String, defaultConfigFile (.error e) = .error (.noCurrentUser e)) ∧
    (MainErr.noAction.code = 3 ∧ MainErr.clearStatusFlags.code = 3 ∧
      MainErr.awayOnline.code = 3 ∧ MainErr.bothExp.code = 4 ∧
      (∀ lit u, (MainErr.badExpiresAt lit u).code = 5) ∧ MainErr.expWithClear.code = 6 ∧
      (∀ u, (MainErr.configRead u).code = 1) ∧ (∀ u, (MainErr.noCurrentUser u).code = 2)) := by
  refine ⟨validate_noAction, validate_clearStatusFlags, ?_, ?_, ?_, ?_, ?_, ?_,
    fun _ => rfl, rfl, rfl, rfl, rfl, fun _ _ => rfl, rfl, fun _ => rfl, fun _ => rfl⟩
  · intro f now h2 ho ha
    exact validate_awayOnline f now h2 ho ha
  · intro f now h1 h2 h3 hat hin
    exact validate_bothExp f now h1 h2 h3 ⟨hat, hin⟩
  · intro f now e h1 h2 h3 hin hat hp
    rw [validate_eq_compute f now h1 h2 h3 (by rintro ⟨_, hpos⟩; exact hin hpos),
      computeExpiration_abs_err f now e hin hat hp]
  · intro f now dt h1 h2 h3 hin hat hp hpos hc
    rw [validate_eq_compute f now h1 h2 h3 (by rintro ⟨_, hpos2⟩; exact hin hpos2),
      computeExpiration_abs f now dt hin hat hp]
    show (if 0 < unixOf dt ∧ f.clear = true then Except.error MainErr.expWithClear
      else Except.ok (unixOf dt)) = Except.error MainErr.expWithClear
    rw [if_pos ⟨hpos, hc⟩]
  · intro f now cfg oracle e hv
    rw [runMain_validate_err f now cfg oracle e hv]
  · intro f now cfg oracle exp ws e hv ht
    rw [runMain_cfg_err f now cfg oracle exp ws e hv ht]
    rfl

theorem C3_amended_witness :
    validate ⟨false, false, true, false, ":x:", "", 0, "", []⟩ 0
      = .error .clearStatusFlags ∧
    validate ⟨false, false, false, false, ":x:", "", 5, "2030-01-01T00:00:00", []⟩ 0
      = .error .bothExp ∧
    MainErr.clearStatusFlags.code = 3 ∧ MainErr.bothExp.code = 4 := by
  refine ⟨?_, ?_, rfl, rfl⟩
  · exact C3_amended_exit_codes.2.1 _ 0 (by decide) (Or.inl (by decide))
  · exact C3_amended_exit_codes.2.2.2.1 _ 0 (by decide) (by decide) (by decide) (by decide)
      (by decide)

/-- C4 counterexample: supplying -clear together with the absolute
expiration 1970-01-01T00:00:00 is not rejected: the timestamp parses to Unix
time 0, the positivity guard does not fire, validation succeeds, and the
clear call is issued to the account. -/
theorem C4_counterexample :
    validate ⟨false, false, true, false, "", "", 0, "1970-01-01T00:00:00", []⟩ 0 = .ok 0 ∧
    (runMain ⟨false, false, true, false, "", "", 0, "1970-01-01T00:00:00", []⟩ 0
      (.ok ["teamA tok1"]) (fun _ _ => none)).calls
      = [clearStatusCall "teamA" "tok1"] := by
  constructor
  · decide
  · decide

/-- C4 amended: a non-empty absolute expiration together with a positive
relative expiration is rejected (exit 4). An absolute expiration that fails
to parse is rejected with a usage error (exit 5) whose message includes the
quoted offending literal and the underlying parse error. An expiration
combined with -clear is rejected (exit 6) exactly when the computed Unix
timestamp is positive: an absolute time at or before the Unix epoch passes
validation even with -clear. -/
theorem C4_amended_expiration_rules (f : Flags) (now : Int)
    (h1 : f.clear = true ∨ f.away = true ∨ f.online = true ∨ f.emoji ≠ "" ∨ f.text ≠ "")
    (h2 : ¬(f.clear = true ∧ (f.emoji ≠ "" ∨ f.text ≠ "")))
    (h3 : ¬(f.online = true ∧ f.away = true)) :
    (f.expiresAt ≠ "" → 0 < f.expiresIn → validate f now = .error .bothExp) ∧
    (¬0 < f.expiresIn → f.expiresAt ≠ "" → ∀ e, parseISO f.expiresAt = .error e →
      validate f now = .error (.badExpiresAt f.expiresAt e) ∧
      Substr (goQuote f.expiresAt) (MainErr.badExpiresAt f.expiresAt e).msg ∧
      Substr e (MainErr.badExpiresAt f.expiresAt e).msg) ∧
    (¬0 < f.expiresIn → f.expiresAt ≠ "" → ∀ dt, parseISO f.expiresAt = .ok dt →
      (0 < unixOf dt → f.clear = true → validate f now = .error .expWithClear) ∧
      (¬0 < unixOf dt → validate f now = .ok (unixOf dt))) := by
  refine ⟨?_, ?_, ?_⟩
  · intro hat hin
    exact validate_bothExp f now h1 h2 h3 ⟨hat, hin⟩
  · intro hin hat e hp
    refine ⟨?_, ?_, ?_⟩
    · rw [validate_eq_compute f now h1 h2 h3 (by rintro ⟨_, hpos⟩; exact hin hpos),
        computeExpiration_abs_err f now e hin hat hp]
    · exact substr_of_data _ _ "cannot parse ISO8601 argument ".data (": " ++ e).data
        (by simp [MainErr.msg, string_append_data, List.append_assoc])
    · exact substr_of_data _ _
        ("cannot parse ISO8601 argument " ++ goQuote f.expiresAt ++ ": ").data []
        (by simp [MainErr.msg, string_append_data, List.append_assoc])
  · intro hin hat dt hp
    have hbase := validate_eq_compute f now h1 h2 h3 (by rintro ⟨_, hpos⟩; exact hin hpos)
    rw [computeExpiration_abs f now dt hin hat hp] at hbase
    constructor
    · intro hpos hc
      rw [hbase]
      show (if 0 < unixOf dt ∧ f.clear = true then Except.error MainErr.expWithClear
        else Except.ok (unixOf dt)) = Except.error MainErr.expWithClear
      rw [if_pos ⟨hpos, hc⟩]
    · intro hnpos
      rw [hbase]
      show (if 0 < unixOf dt ∧ f.clear = true then Except.error MainErr.expWithClear
        else Except.ok (unixOf dt)) = Except.ok (unixOf dt)
      rw [if_neg (by rintro ⟨hpos, _⟩; exact hnpos hpos)]

theorem C4_amended_witness :
    validate ⟨false, false, false, false, ":x:", "", 0, "not-a-date", []⟩ 0
      = .error (.badExpiresAt "not-a-date"
          ("parsing time \"not-a-date\" as \"2006-01-02T15:04:05\": "
            ++ "cannot parse \"not-a-date\" as \"2006\"")) ∧
    Substr (goQuote "not-a-date")
      ((MainErr.badExpiresAt "not-a-date"
          ("parsing time \"not-a-date\" as \"2006-01-02T15:04:05\": "
            ++ "cannot parse \"not-a-date\" as \"2006\"")).msg) ∧
    Substr ("parsing time \"not-a-date\" as \"2006-01-02T15:04:05\": "
        ++ "cannot parse \"not-a-date\" as \"2006\"")
      ((MainErr.badExpiresAt "not-a-date"
          ("parsing time \"not-a-date\" as \"2006-01-02T15:04:05\": "
            ++ "cannot parse \"not-a-date\" as \"2006\"")).msg) := by
  have h := (C4_amended_expiration_rules ⟨false, false, false, false, ":x:", "", 0,
      "not-a-date", []⟩ 0 (by decide) (by decide) (by decide)).2.1 (by decide) (by decide)
    ("parsing time \"not-a-date\" as \"2006-01-02T15:04:05\": "
      ++ "cannot parse \"not-a-date\" as \"2006\"") (by decide)
  exact ⟨h.1, h.2.1, h.2.2⟩

end Slacker

